import Mathlib

/-!
Verification development for the codeStructView structural parser.

Strings from the source program are embedded as `List Char` (`Str`).  The
JavaScript regular expressions used by the parsers are embedded via a small
regular-expression abstract syntax (`RE`) together with a fuel-bounded
backtracking matcher (`reM`) that follows JavaScript semantics: leftmost
match, ordered alternation, greedy and lazy quantifiers, and capture groups.
Each regex literal of the source is transliterated node by node into an `RE`
value next to the function that uses it.
-/

abbrev Str := List Char

def str (s : String) : Str := s.toList

/-- JavaScript whitespace as used by `trim` and `\s` (ASCII fragment). -/
def jsIsSpace (c : Char) : Bool :=
  c = ' ' || c = '\t' || c = '\n' || c = '\r' || c = '\x0b' || c = '\x0c'

/-- Embedding of JavaScript `String.prototype.trim`. -/
def trimL (s : Str) : Str :=
  ((s.dropWhile jsIsSpace).reverse.dropWhile jsIsSpace).reverse

/-- Embedding of JavaScript `startsWith`. -/
def startsWithL (s p : Str) : Bool := p.isPrefixOf s

def includesGo (s p : Str) : Bool :=
  match s with
  | [] => p.isPrefixOf ([] : Str)
  | _ :: t => p.isPrefixOf s || includesGo t p

/-- Embedding of JavaScript `includes` (substring test). -/
def includesL (s p : Str) : Bool := includesGo s p

def indexOfGo (s p : Str) (acc : Nat) : Option Nat :=
  match s with
  | [] => if p.isPrefixOf ([] : Str) then some acc else none
  | _ :: t => if p.isPrefixOf s then some acc else indexOfGo t p (acc + 1)

/-- Embedding of JavaScript `indexOf`: position of the first occurrence. -/
def indexOfL (s p : Str) : Option Nat := indexOfGo s p 0

/-- Position of the last occurrence of character `c` (JavaScript `lastIndexOf`). -/
def lastIndexOfChar (s : Str) (c : Char) : Option Nat :=
  (s.enum.filter (fun p => p.2 = c)).getLast?.map (fun p => p.1)

/-- `(line.match(/c/g) || []).length` for a single character, as an `Int`. -/
def countChar (c : Char) (s : Str) : Int :=
  ((s.filter (fun d => d = c)).length : Int)

def collapseGo : Bool → Str → Str
  | _, [] => []
  | skipMode, c :: rest =>
    if jsIsSpace c then
      if skipMode then collapseGo true rest else ' ' :: collapseGo true rest
    else c :: collapseGo false rest

/-- Embedding of `replace(/\s+/g, ' ')`: collapse whitespace runs to one space. -/
def collapseWS (s : Str) : Str := collapseGo false s

def splitNLGo (s : Str) (cur : Str) : List Str :=
  match s with
  | [] => [cur.reverse]
  | c :: rest => if c = '\n' then cur.reverse :: splitNLGo rest [] else splitNLGo rest (c :: cur)

/-- Embedding of `split('\n')`. -/
def splitNL (s : Str) : List Str := splitNLGo s []

/-- Embedding of `Array.prototype.join(sep)`. -/
def joinSep (sep : Str) : List Str → Str
  | [] => []
  | [x] => x
  | x :: rest => x ++ sep ++ joinSep sep rest

/-- Embedding of `toLowerCase` (ASCII fragment). -/
def toLowerL (s : Str) : Str := s.map Char.toLower

/-- `while (s.startsWith(c)) s = s.substring(1).trim();` with a length fuel. -/
def stripLeadGo (c : Char) : Nat → Str → Str
  | 0, s => s
  | _ + 1, [] => []
  | fuel + 1, d :: rest => if d = c then stripLeadGo c fuel (trimL rest) else d :: rest

def stripLead (c : Char) (s : Str) : Str := stripLeadGo c s.length s

/-! ## Regular-expression engine (JavaScript semantics) -/

/-- One item of a character class `[...]`. -/
inductive ClsItem where
  | chr (c : Char)
  | range (lo hi : Char)
  | word
  | space
  | nspace

/-- Regular-expression abstract syntax.  `star true` is the lazy `*?`. -/
inductive RE where
  | eps
  | chr (c : Char)
  | cls (neg : Bool) (items : List ClsItem)
  | seq (a b : RE)
  | alt (a b : RE)
  | star (lazy : Bool) (a : RE)
  | group (n : Nat) (a : RE)
  | bos
  | eos

abbrev Caps := List (Nat × Str)

def capSet (caps : Caps) (n : Nat) (v : Str) : Caps :=
  (caps.filter (fun p => p.1 ≠ n)) ++ [(n, v)]

def capGet (caps : Caps) (n : Nat) : Option Str := caps.lookup n

def clsHit (ci : Bool) (c : Char) : ClsItem → Bool
  | .chr d => if ci then c.toLower = d.toLower else c = d
  | .range lo hi => lo.val ≤ c.val && c.val ≤ hi.val
  | .word => c.isAlphanum || c = '_'
  | .space => jsIsSpace c
  | .nspace => !jsIsSpace c

def clsMatch (ci : Bool) (neg : Bool) (items : List ClsItem) (c : Char) : Bool :=
  let hit := items.any (clsHit ci c)
  if neg then !hit else hit

def charEq (ci : Bool) (c d : Char) : Bool :=
  if ci then c.toLower = d.toLower else c = d

/-- Backtracking matcher in continuation-passing style.  `full` is the length
of the whole subject string (used by `^`); a star iteration must consume at
least one character, as in JavaScript.  Fuel exhaustion yields no match;
callers supply fuel ample for the pattern and subject at hand. -/
def reM (ci : Bool) (full : Nat) :
    Nat → RE → Str → Caps → (Str → Caps → Option (Str × Caps)) → Option (Str × Caps)
  | 0, _, _, _, _ => none
  | fuel + 1, re, s, caps, k =>
    match re with
    | .eps => k s caps
    | .chr c =>
      match s with
      | [] => none
      | d :: rest => if charEq ci c d then k rest caps else none
    | .cls neg items =>
      match s with
      | [] => none
      | d :: rest => if clsMatch ci neg items d then k rest caps else none
    | .seq a b => reM ci full fuel a s caps (fun s2 c2 => reM ci full fuel b s2 c2 k)
    | .alt a b =>
      (reM ci full fuel a s caps k).orElse (fun _ => reM ci full fuel b s caps k)
    | .star lz a =>
      let once : (Str → Caps → Option (Str × Caps)) → Option (Str × Caps) := fun kk =>
        reM ci full fuel a s caps (fun s2 c2 =>
          if s2.length < s.length then reM ci full fuel (.star lz a) s2 c2 kk else none)
      if lz then (k s caps).orElse (fun _ => once k)
      else (once k).orElse (fun _ => k s caps)
    | .group n a =>
      reM ci full fuel a s caps (fun s2 c2 =>
        k s2 (capSet c2 n (s.take (s.length - s2.length))))
    | .bos => if s.length = full then k s caps else none
    | .eos => if s.isEmpty then k s caps else none

def reSize : RE → Nat
  | .eps | .bos | .eos | .chr _ | .cls _ _ => 1
  | .seq a b | .alt a b => reSize a + reSize b + 1
  | .star _ a | .group _ a => reSize a + 1

def reFuel (re : RE) (t : Str) : Nat := (t.length + 1) * (reSize re + 2) + 8

/-- Try a match at every start position, leftmost first (JavaScript `match`). -/
def reRunGo (ci : Bool) (re : RE) (full : Nat) (t : Str) : Option (Caps × Str) :=
  match reM ci full (reFuel re t) re t [] (fun s c => some (s, c)) with
  | some (rest, caps) => some (caps, rest)
  | none =>
    match t with
    | [] => none
    | _ :: t2 => reRunGo ci re full t2

/-- JavaScript `string.match(re)`: captures of the first match, and the rest
of the subject after the match. -/
def reRun (ci : Bool) (re : RE) (s : Str) : Option (Caps × Str) :=
  reRunGo ci re s.length s

/-- JavaScript `re.test(string)`. -/
def reTest (ci : Bool) (re : RE) (s : Str) : Bool := (reRun ci re s).isSome

/-- Capture group `n` of a match result (`m[n]`). -/
def reG (r : Option (Caps × Str)) (n : Nat) : Option Str :=
  r.bind (fun p => capGet p.1 n)

def reAllGo (ci : Bool) (re : RE) : Nat → Str → List Caps
  | 0, _ => []
  | fuel + 1, s =>
    match reRun ci re s with
    | none => []
    | some (caps, rest) =>
      caps :: (if rest.length < s.length then reAllGo ci re fuel rest
               else reAllGo ci re fuel (rest.drop 1))

/-- JavaScript `matchAll` for the `g` flag: all matches, scanning forward. -/
def reAll (ci : Bool) (re : RE) (s : Str) : List Caps :=
  reAllGo ci re (s.length + 1) s

/-! Builders used to transliterate the source regex literals. -/

namespace Rx

def cat (l : List RE) : RE := l.foldr RE.seq RE.eps

def lit (s : String) : RE := cat (s.toList.map RE.chr)

def alts : List RE → RE
  | [] => RE.eps
  | [r] => r
  | r :: rest => RE.alt r (alts rest)

def opt (r : RE) : RE := RE.alt r RE.eps

def star (r : RE) : RE := RE.star false r

def plus (r : RE) : RE := RE.seq r (RE.star false r)

def lazyStar (r : RE) : RE := RE.star true r

def lazyPlus (r : RE) : RE := RE.seq r (RE.star true r)

def w : RE := RE.cls false [ClsItem.word]

def s : RE := RE.cls false [ClsItem.space]

def ss : RE := star s

def sp : RE := plus s

def wp : RE := plus w

def anyc : RE := RE.cls false [ClsItem.space, ClsItem.nspace]

def noneOf (cs : String) : RE := RE.cls true (cs.toList.map ClsItem.chr)

def oneOf (cs : String) : RE := RE.cls false (cs.toList.map ClsItem.chr)

def g (n : Nat) (r : RE) : RE := RE.group n r

/-- `(?:public|private|protected|internal)` -/
def access : RE := alts [lit "public", lit "private", lit "protected", lit "internal"]

end Rx

/-! ## Data model (`fileStructureParser.ts`) -/

inductive CodeElementType where
  | Class
  | Interface
  | Method
  | Property
  | Variable
  | Function
  | Namespace
  | Enum
  | Constructor
  | Field
  | Module
  deriving DecidableEq

inductive AccessModifier where
  | Public
  | Private
  | Protected
  | Internal
  | Default
  deriving DecidableEq

/-- The `CodeElement` interface.  `params` mirrors the optional
`params?: Array<\x7b name; description \x7d>` field of the interface; `tagName`
mirrors the ad-hoc `(element as any).tagName` used by the template scanner. -/
structure CodeElement where
  name : Str
  type : CodeElementType
  accessModifier : AccessModifier
  line : Nat
  comment : Option Str := none
  returnType : Option Str := none
  parameters : Option Str := none
  returns : Option Str := none
  params : Option (List (Str × Str)) := none
  children : List CodeElement := []
  tagName : Option Str := none

/-! ## `BaseParser` (`src/parsers/BaseParser.ts`) -/

namespace BaseParser

def extractAccessModifier (line : Str) : AccessModifier :=
  if includesL line (str "public") then AccessModifier.Public
  else if includesL line (str "private") then AccessModifier.Private
  else if includesL line (str "protected") then AccessModifier.Protected
  else if includesL line (str "internal") then AccessModifier.Internal
  else AccessModifier.Default

/-- `cleanComment`: trim, strip leading spaces, slashes and asterisks, then
collapse interior whitespace. -/
def cleanComment (comment : Str) : Str :=
  if comment.isEmpty then [] else
  let c0 := trimL comment
  let c1 := stripLead ' ' c0
  let c2 := stripLead '/' c1
  let c3 := stripLead '*' c2
  let c4 := stripLead ' ' c3
  trimL (collapseWS c4)

/-- `/<summary>([\s\S]*?)<\/summary>/i` -/
def summaryRe : RE := Rx.cat [Rx.lit "<summary>", Rx.g 1 (Rx.lazyStar Rx.anyc), Rx.lit "</summary>"]

/-- `/<param\s+name=["']([^"']+)["']>([\s\S]*?)<\/param>/gi` -/
def paramRe : RE :=
  Rx.cat [Rx.lit "<param", Rx.sp, Rx.lit "name=", Rx.oneOf "\"'",
    Rx.g 1 (Rx.plus (Rx.noneOf "\"'")), Rx.oneOf "\"'", Rx.lit ">",
    Rx.g 2 (Rx.lazyStar Rx.anyc), Rx.lit "</param>"]

/-- `/<returns>([\s\S]*?)<\/returns>/i` -/
def returnsRe : RE := Rx.cat [Rx.lit "<returns>", Rx.g 1 (Rx.lazyStar Rx.anyc), Rx.lit "</returns>"]

/-- Per-tag content processing: split on newlines, clean each line, drop
empties, join with single spaces, collapse whitespace and trim. -/
def processTag (raw : Str) : Str :=
  trimL (collapseWS (joinSep (str " ")
    (((splitNL raw).map cleanComment).filter (fun l => !l.isEmpty))))

structure XmlScanState where
  collected : List Str
  found : Bool
  stopped : Bool

/-- One step of the upward scan for `///` documentation lines (shared by
`extractXmlCommentInfo` and `extractComment`, whose collection loops are
textually identical in the source). -/
def xmlScanStep (lines : List Str) (st : XmlScanState) (i : Nat) : XmlScanState :=
  if st.stopped then st else
  match lines.get? i with
  | none => { st with stopped := true }
  | some orig =>
    let line := trimL orig
    if startsWithL line (str "///") then
      let content := trimL (match indexOfL orig (str "///") with
        | some j => orig.drop (j + 3)
        | none => orig.drop 2)
      { st with found := true, collected := content :: st.collected }
    else if st.found then
      if !line.isEmpty && !startsWithL line (str "//") && !startsWithL line (str "*") &&
          !startsWithL line (str "[") && line.length > 0
      then { st with stopped := true } else st
    else
      if !line.isEmpty && !startsWithL line (str "//") && !startsWithL line (str "*") &&
          !startsWithL line (str "///") && !startsWithL line (str "[")
      then { st with stopped := true } else st

/-- Upward scan over at most 20 lines (`for i = lineIndex-1; i >= max(0, lineIndex-20); i--`). -/
def xmlCommentLinesAt (lines : List Str) (lineIndex : Nat) : List Str :=
  (((List.range (min 20 lineIndex)).map (fun k => lineIndex - 1 - k)).foldl
    (xmlScanStep lines) ⟨[], false, false⟩).collected

structure XmlInfo where
  summary : Option Str := none
  params : List (Str × Str) := []
  returns : Option Str := none

/-- `extractXmlCommentInfo`: structured summary / param / returns extraction. -/
def extractXmlCommentInfo (lines : List Str) (lineIndex : Nat) : XmlInfo :=
  if lineIndex ≥ lines.length then {} else
  let collected := xmlCommentLinesAt lines lineIndex
  if collected.isEmpty then {} else
  let xmlComment := joinSep (str "\n") collected
  let summary : Option Str :=
    match reG (reRun true summaryRe xmlComment) 1 with
    | some raw => let s2 := processTag raw; if s2.isEmpty then none else some s2
    | none => none
  let params : List (Str × Str) :=
    (reAll true paramRe xmlComment).foldl (fun acc caps =>
      match capGet caps 1, capGet caps 2 with
      | some n, some d =>
        let d2 := processTag d
        if !n.isEmpty && !d2.isEmpty then acc ++ [(n, d2)] else acc
      | _, _ => acc) []
  let rets : Option Str :=
    match reG (reRun true returnsRe xmlComment) 1 with
    | some raw => let r2 := processTag raw; if r2.isEmpty then none else some r2
    | none => none
  { summary := summary, params := params, returns := rets }

/-- Inner loop of the `/* ... */` block-comment branch of `extractComment`. -/
def blockCommentStep (lines : List Str) (i : Nat) (st : Str × Bool) (j : Nat) : Str × Bool :=
  if st.2 then st else
  let commentLine := trimL (lines.getD j [])
  if includesL commentLine (str "*/") then
    (st.1 ++ commentLine.take ((indexOfL commentLine (str "*/")).getD 0), true)
  else if j = i then
    (st.1 ++ commentLine.drop (((indexOfL commentLine (str "/*")).getD 0) + 2), false)
  else
    (st.1 ++ (str " ") ++ commentLine, false)

/-- One step of the plain-comment lookback (window of 5 lines).  The state is
`none` while still scanning, `some r` once the source function returned `r`. -/
def plainCommentStep (lines : List Str) (lineIndex : Nat) (st : Option (Option Str)) (i : Nat) :
    Option (Option Str) :=
  match st with
  | some _ => st
  | none =>
    let line := trimL (lines.getD i [])
    if startsWithL line (str "//") && !startsWithL line (str "///") then
      let c := cleanComment (line.drop 2)
      some (if c.isEmpty then none else some c)
    else if includesL line (str "/*") then
      let block := ((List.range' i (min (lineIndex + 1) lines.length - i)).foldl
        (blockCommentStep lines i) ([], false)).1
      let c := cleanComment block
      some (if c.isEmpty then none else some c)
    else if !line.isEmpty && !startsWithL line (str "//") && !startsWithL line (str "*") &&
        !startsWithL line (str "///") then
      some none
    else st

/-- `extractComment`: documentation summary first, then the whole cleaned
documentation block, then a plain `//` or `/* */` comment. -/
def extractComment (lines : List Str) (lineIndex : Nat) : Option Str :=
  if lineIndex ≥ lines.length then none else
  let collected := xmlCommentLinesAt lines lineIndex
  let viaXml : Option Str :=
    if collected.isEmpty then none else
    let xmlComment := joinSep (str "\n") collected
    let fallback : Option Str :=
      let cc := joinSep (str " ") ((collected.map cleanComment).filter (fun l => !l.isEmpty))
      if cc.isEmpty then none else some cc
    match reG (reRun true summaryRe xmlComment) 1 with
    | some raw =>
      let s2 := processTag raw
      if !s2.isEmpty then some s2 else fallback
    | none => fallback
  match viaXml with
  | some c => some c
  | none =>
    match ((List.range (min 5 lineIndex)).map (fun k => lineIndex - 1 - k)).foldl
        (plainCommentStep lines lineIndex) none with
    | some r => r
    | none => none

def descName : Str := str "方法描述:"

def paramsName : Str := str "方法参数:"

def returnsName : Str := str "方法返回:"

/-- The description / parameters / returns pseudo-children synthesized for a
callable element from its comment, parameter descriptions and return
description (the body of the `if type === Method || type === Constructor`
branch of `createElement`). -/
def pseudoChildren (line : Nat) (comment : Option Str) (params : List (Str × Str))
    (returns : Option Str) : List CodeElement :=
  let descChildren : List CodeElement :=
    match comment with
    | some c =>
      if !c.isEmpty then
        [{ name := descName, type := CodeElementType.Variable,
           accessModifier := AccessModifier.Default, line := line,
           comment := some (stripLead '/' c), children := [] }]
      else []
    | none => []
  let paramChildren : List CodeElement :=
    if params.isEmpty then [] else
    [{ name := paramsName, type := CodeElementType.Variable,
       accessModifier := AccessModifier.Default, line := line, comment := none,
       children := params.map (fun p =>
         { name := p.1, type := CodeElementType.Variable,
           accessModifier := AccessModifier.Default, line := line,
           comment := some (stripLead '/' p.2), children := [] }) }]
  let retChildren : List CodeElement :=
    match returns with
    | some r =>
      if !r.isEmpty then
        [{ name := returnsName, type := CodeElementType.Variable,
           accessModifier := AccessModifier.Default, line := line,
           comment := some (stripLead '/' r), children := [] }]
      else []
    | none => []
  descChildren ++ paramChildren ++ retChildren

/-- `createElement`: builds a `CodeElement` and, for methods and constructors,
synthesizes the description / parameters / returns pseudo-children. -/
def createElement (name : Str) (type : CodeElementType) (line : Nat) (lineText : Str)
    (lines : List Str) (returnType : Option Str) (parameters : Option Str)
    (lineIndex : Option Nat) : CodeElement :=
  let indexForComment := match lineIndex with
    | some i => i
    | none => line - 1
  let xmlInfo := extractXmlCommentInfo lines indexForComment
  let comment0 : Option Str :=
    match xmlInfo.summary with
    | some s2 => some s2
    | none => extractComment lines indexForComment
  let comment : Option Str :=
    match comment0 with
    | some c => some (cleanComment c)
    | none => none
  let element : CodeElement :=
    { name := name, type := type, accessModifier := extractAccessModifier lineText,
      line := line, comment := comment, returnType := returnType,
      parameters := parameters, returns := xmlInfo.returns, children := [] }
  if type = CodeElementType.Method ∨ type = CodeElementType.Constructor then
    { element with children := pseudoChildren line element.comment xmlInfo.params element.returns }
  else element

end BaseParser

/-! ## `CSharpParser` (brace-depth scope scanner with namespace/constructor semantics) -/

namespace CSharpParser

/-- `/(?:public|private|protected|internal)?\s*(?:abstract|sealed|static)?\s*class\s+(\w+)/` -/
def classRe : RE :=
  Rx.cat [Rx.opt Rx.access, Rx.ss,
    Rx.opt (Rx.alts [Rx.lit "abstract", Rx.lit "sealed", Rx.lit "static"]), Rx.ss,
    Rx.lit "class", Rx.sp, Rx.g 1 Rx.wp]

/-- `/(?:public|private|protected|internal)?\s*interface\s+(\w+)/` -/
def interfaceRe : RE :=
  Rx.cat [Rx.opt Rx.access, Rx.ss, Rx.lit "interface", Rx.sp, Rx.g 1 Rx.wp]

/-- `/namespace\s+([\w.]+)/` -/
def namespaceRe : RE :=
  Rx.cat [Rx.lit "namespace", Rx.sp, Rx.g 1 (Rx.plus (RE.cls false [ClsItem.word, ClsItem.chr '.']))]

/-- `/(?:public|private|protected|internal)?\s*enum\s+(\w+)/` -/
def enumRe : RE :=
  Rx.cat [Rx.opt Rx.access, Rx.ss, Rx.lit "enum", Rx.sp, Rx.g 1 Rx.wp]

/-- `([^)]*)` -/
def argsG (n : Nat) : RE := Rx.g n (Rx.star (Rx.noneOf ")"))

/-- `/static\s+(?:public|private|protected|internal)?\s*(\w+)\s*\(([^)]*)\)/` -/
def ctorRe1 : RE :=
  Rx.cat [Rx.lit "static", Rx.sp, Rx.opt Rx.access, Rx.ss, Rx.g 1 Rx.wp, Rx.ss,
    Rx.lit "(", argsG 2, Rx.lit ")"]

/-- `/(?:public|private|protected|internal)\s*(\w+)\s*\(([^)]*)\)/` -/
def ctorRe2 : RE :=
  Rx.cat [Rx.access, Rx.ss, Rx.g 1 Rx.wp, Rx.ss, Rx.lit "(", argsG 2, Rx.lit ")"]

/-- `/^\s*(\w+)\s*\(([^)]*)\)/` -/
def ctorRe3 : RE :=
  Rx.cat [RE.bos, Rx.ss, Rx.g 1 Rx.wp, Rx.ss, Rx.lit "(", argsG 2, Rx.lit ")"]

/-- `[\w<>,\s.]+?` (lazy), the return-type fragment of the method patterns. -/
def typeFragG (n : Nat) : RE :=
  Rx.g n (Rx.lazyPlus (RE.cls false
    [ClsItem.word, ClsItem.chr '<', ClsItem.chr '>', ClsItem.chr ',', ClsItem.space, ClsItem.chr '.']))

/-- `(?:async|virtual|override|abstract)?` -/
def methodKw : RE :=
  Rx.opt (Rx.alts [Rx.lit "async", Rx.lit "virtual", Rx.lit "override", Rx.lit "abstract"])

/-- `/static\s+(?:public|private|protected|internal)?\s*(?:async|virtual|override|abstract)?\s*([\w<>,\s.]+?)\s+(\w+)\s*\(([^)]*)\)/` -/
def methodRe1 : RE :=
  Rx.cat [Rx.lit "static", Rx.sp, Rx.opt Rx.access, Rx.ss, methodKw, Rx.ss,
    typeFragG 1, Rx.sp, Rx.g 2 Rx.wp, Rx.ss, Rx.lit "(", argsG 3, Rx.lit ")"]

/-- `/(?:public|private|protected|internal)\s*(?:static|async|virtual|override|abstract)?\s*([\w<>,\s.]+?)\s+(\w+)\s*\(([^)]*)\)/` -/
def methodRe2 : RE :=
  Rx.cat [Rx.access, Rx.ss,
    Rx.opt (Rx.alts [Rx.lit "static", Rx.lit "async", Rx.lit "virtual", Rx.lit "override", Rx.lit "abstract"]),
    Rx.ss, typeFragG 1, Rx.sp, Rx.g 2 Rx.wp, Rx.ss, Rx.lit "(", argsG 3, Rx.lit ")"]

/-- `/static\s+([\w<>,\s.]+?)\s+(\w+)\s*\(([^)]*)\)/` -/
def methodRe3 : RE :=
  Rx.cat [Rx.lit "static", Rx.sp, typeFragG 1, Rx.sp, Rx.g 2 Rx.wp, Rx.ss,
    Rx.lit "(", argsG 3, Rx.lit ")"]

/-- `(\w+(?:<[^>]+>)?)`, the property/field type fragment. -/
def simpleTypeG (n : Nat) : RE :=
  Rx.g n (RE.seq Rx.wp (Rx.opt (Rx.cat [Rx.lit "<", Rx.plus (Rx.noneOf ">"), Rx.lit ">"])))

/-- `/static\s+(?:public|private|protected|internal)?\s*(?:virtual|override)?\s*(\w+(?:<[^>]+>)?)\s+(\w+)\s*\{/` -/
def propRe1 : RE :=
  Rx.cat [Rx.lit "static", Rx.sp, Rx.opt Rx.access, Rx.ss,
    Rx.opt (Rx.alts [Rx.lit "virtual", Rx.lit "override"]), Rx.ss,
    simpleTypeG 1, Rx.sp, Rx.g 2 Rx.wp, Rx.ss, Rx.lit "\x7b"]

/-- `/(?:public|private|protected|internal)\s*(?:static|virtual|override)?\s*(\w+(?:<[^>]+>)?)\s+(\w+)\s*\{/` -/
def propRe2 : RE :=
  Rx.cat [Rx.access, Rx.ss,
    Rx.opt (Rx.alts [Rx.lit "static", Rx.lit "virtual", Rx.lit "override"]), Rx.ss,
    simpleTypeG 1, Rx.sp, Rx.g 2 Rx.wp, Rx.ss, Rx.lit "\x7b"]

/-- `/static\s+(\w+(?:<[^>]+>)?)\s+(\w+)\s*\{/` -/
def propRe3 : RE :=
  Rx.cat [Rx.lit "static", Rx.sp, simpleTypeG 1, Rx.sp, Rx.g 2 Rx.wp, Rx.ss, Rx.lit "\x7b"]

/-- `/^\s*(?:public|private|protected|internal|static|readonly|const)/` -/
def fieldGuardRe : RE :=
  Rx.cat [RE.bos, Rx.ss,
    Rx.alts [Rx.lit "public", Rx.lit "private", Rx.lit "protected", Rx.lit "internal",
      Rx.lit "static", Rx.lit "readonly", Rx.lit "const"]]

/-- `(?:static|readonly|const)` -/
def fieldKw : RE := Rx.alts [Rx.lit "static", Rx.lit "readonly", Rx.lit "const"]

/-- `(?:\s*[=;])` -/
def fieldEnd : RE := Rx.cat [Rx.ss, Rx.oneOf "=;"]

/-- `/(?:static|readonly|const)\s+(?:public|private|protected|internal)?\s*(\w+(?:<[^>]+>)?)\s+(\w+)(?:\s*[=;])/` -/
def fieldRe1 : RE :=
  Rx.cat [fieldKw, Rx.sp, Rx.opt Rx.access, Rx.ss, simpleTypeG 1, Rx.sp, Rx.g 2 Rx.wp, fieldEnd]

/-- `/(?:public|private|protected|internal)\s*(?:static|readonly|const)?\s*(\w+(?:<[^>]+>)?)\s+(\w+)(?:\s*[=;])/` -/
def fieldRe2 : RE :=
  Rx.cat [Rx.access, Rx.ss, Rx.opt fieldKw, Rx.ss, simpleTypeG 1, Rx.sp, Rx.g 2 Rx.wp, fieldEnd]

/-- `/(?:static|readonly|const)\s+(\w+(?:<[^>]+>)?)\s+(\w+)(?:\s*[=;])/` -/
def fieldRe3 : RE :=
  Rx.cat [fieldKw, Rx.sp, simpleTypeG 1, Rx.sp, Rx.g 2 Rx.wp, fieldEnd]

def parseClass (line : Str) (lineNum : Nat) (lines : List Str) : Option CodeElement :=
  match reRun false classRe line with
  | some m =>
    some (BaseParser.createElement ((capGet m.1 1).getD []) CodeElementType.Class lineNum line lines
      none none none)
  | none => none

def parseInterface (line : Str) (lineNum : Nat) (lines : List Str) : Option CodeElement :=
  match reRun false interfaceRe line with
  | some m =>
    some (BaseParser.createElement ((capGet m.1 1).getD []) CodeElementType.Interface lineNum line lines
      none none none)
  | none => none

def parseNamespace (line : Str) (lineNum : Nat) (lines : List Str) : Option CodeElement :=
  match reRun false namespaceRe line with
  | some m =>
    some (BaseParser.createElement ((capGet m.1 1).getD []) CodeElementType.Namespace lineNum line lines
      none none none)
  | none => none

def parseEnum (line : Str) (lineNum : Nat) (lines : List Str) : Option CodeElement :=
  match reRun false enumRe line with
  | some m =>
    some (BaseParser.createElement ((capGet m.1 1).getD []) CodeElementType.Enum lineNum line lines
      none none none)
  | none => none

/-- `parseConstructor`: three patterns in order; the captured callable name
must equal the enclosing class name. -/
def parseConstructor (line : Str) (lineNum : Nat) (lines : List Str) (className : Str) :
    Option CodeElement :=
  if includesL line (str "\x7b") && (includesL line (str "get") || includesL line (str "set")) then
    none
  else
    let m := ((reRun false ctorRe1 line).orElse (fun _ => reRun false ctorRe2 line)).orElse
      (fun _ => reRun false ctorRe3 line)
    match m with
    | some mm =>
      let methodName := (capGet mm.1 1).getD []
      let parameters := (capGet mm.1 2).getD []
      if methodName = className then
        some (BaseParser.createElement methodName CodeElementType.Constructor lineNum line lines
          none (some parameters) none)
      else none
    | none => none

/-- `parseMethod`: three patterns in order; a match whose return type equals
both the method name and the class name is classified as a constructor. -/
def parseMethod (line : Str) (lineNum : Nat) (lines : List Str) (className : Str) :
    Option CodeElement :=
  if includesL line (str "\x7b") && (includesL line (str "get") || includesL line (str "set")) then
    none
  else
    let m := ((reRun false methodRe1 line).orElse (fun _ => reRun false methodRe2 line)).orElse
      (fun _ => reRun false methodRe3 line)
    match m with
    | some mm =>
      let returnType := trimL ((capGet mm.1 1).getD [])
      let methodName := (capGet mm.1 2).getD []
      let parameters := (capGet mm.1 3).getD []
      if returnType = methodName ∧ methodName = className then
        some (BaseParser.createElement methodName CodeElementType.Constructor lineNum line lines
          none (some parameters) none)
      else
        some (BaseParser.createElement methodName CodeElementType.Method lineNum line lines
          (some returnType) (some parameters) none)
    | none => none

def parseProperty (line : Str) (lineNum : Nat) (lines : List Str) : Option CodeElement :=
  let m := ((reRun false propRe1 line).orElse (fun _ => reRun false propRe2 line)).orElse
    (fun _ => reRun false propRe3 line)
  match m with
  | some mm =>
    some (BaseParser.createElement ((capGet mm.1 2).getD []) CodeElementType.Property lineNum line
      lines (capGet mm.1 1) none none)
  | none => none

def parseField (line : Str) (lineNum : Nat) (lines : List Str) : Option CodeElement :=
  if includesL line (str "(") ||
      (includesL line (str "\x7b") && !includesL line (str "get") && !includesL line (str "set")) then
    none
  else if !reTest false fieldGuardRe line then none
  else
    let m := ((reRun false fieldRe1 line).orElse (fun _ => reRun false fieldRe2 line)).orElse
      (fun _ => reRun false fieldRe3 line)
    match m with
    | some mm =>
      some (BaseParser.createElement ((capGet mm.1 2).getD []) CodeElementType.Field lineNum line
        lines (capGet mm.1 1) none none)
    | none => none

/-- Scanner state: the output list so far, the running brace count, and the
namespace / class / method frames with their recorded floors. -/
structure ScanState where
  elements : List CodeElement
  braceCount : Int
  currentNamespace : Option CodeElement
  namespaceStartBrace : Int
  currentClass : Option CodeElement
  classStartBrace : Int
  inMethod : Bool
  methodBraceLevel : Int

def initState : ScanState := ⟨[], 0, none, -1, none, -1, false, -1⟩

/-- Append a child to an element under construction. -/
def pushChild (e : CodeElement) (c : CodeElement) : CodeElement :=
  { e with children := e.children ++ [c] }

/-- Attach a closed class to its parent (the open namespace if any, otherwise
the root list); in the source this attachment happened by reference at the
moment the class was discovered. -/
def closeClass (st : ScanState) : ScanState :=
  match st.currentClass with
  | none => st
  | some cls =>
    match st.currentNamespace with
    | some ns =>
      { st with
        currentNamespace := some (pushChild ns cls), currentClass := none,
        classStartBrace := -1, inMethod := false, methodBraceLevel := -1 }
    | none =>
      { st with
        elements := st.elements ++ [cls], currentClass := none,
        classStartBrace := -1, inMethod := false, methodBraceLevel := -1 }

/-- Attach a closed namespace (first force-closing any class inside it). -/
def closeNamespace (st : ScanState) : ScanState :=
  let st := closeClass st
  match st.currentNamespace with
  | none => st
  | some ns =>
    { st with
      elements := st.elements ++ [ns], currentNamespace := none,
      namespaceStartBrace := -1, currentClass := none, classStartBrace := -1,
      inMethod := false, methodBraceLevel := -1 }

/-- Per-line transition of `CSharpParser.parse`. -/
def step (lines : List Str) (st : ScanState) (p : Nat × Str) : ScanState :=
  let lineNum := p.1 + 1
  let line := p.2
  let trimmedLine := trimL line
  if trimmedLine.isEmpty || startsWithL trimmedLine (str "//") ||
      startsWithL trimmedLine (str "*") || startsWithL trimmedLine (str "///") ||
      startsWithL trimmedLine (str "/*") || startsWithL trimmedLine (str "/**") then
    st
  else
  let openBraces := countChar '\x7b' line
  let closeBraces := countChar '\x7d' line
  let beforeBraceCount := st.braceCount
  let bc := beforeBraceCount + openBraces - closeBraces
  let st := { st with braceCount := bc }
  -- namespace close check
  let st :=
    if st.currentNamespace.isSome ∧ st.namespaceStartBrace ≥ 0 ∧ bc ≤ st.namespaceStartBrace then
      closeNamespace st
    else st
  -- class close check
  let st :=
    if st.currentClass.isSome ∧ st.classStartBrace ≥ 0 ∧ bc ≤ st.classStartBrace then
      closeClass st
    else st
  -- method close check
  let st :=
    if st.inMethod ∧ st.methodBraceLevel ≥ 0 ∧ bc ≤ st.methodBraceLevel then
      { st with inMethod := false, methodBraceLevel := -1 }
    else st
  -- namespace declaration
  if st.currentNamespace.isNone ∧ st.currentClass.isNone then
    match parseNamespace trimmedLine lineNum lines with
    | some ns =>
      { st with currentNamespace := some ns, namespaceStartBrace := beforeBraceCount }
    | none => stepAfterNamespace lines st lineNum trimmedLine beforeBraceCount
  else stepAfterNamespace lines st lineNum trimmedLine beforeBraceCount
where
  stepAfterNamespace (lines : List Str) (st : ScanState) (lineNum : Nat) (trimmedLine : Str)
      (_beforeBraceCount : Int) : ScanState :=
    let bc := st.braceCount
    -- class declaration
    match st.currentClass with
    | none =>
      match parseClass trimmedLine lineNum lines with
      | some cls =>
        -- the source pushes the class into the namespace children (or the
        -- roots) immediately; the attachment is deferred to `closeClass` here
        { st with currentClass := some cls, classStartBrace := _beforeBraceCount }
      | none =>
        -- interfaces and enums at namespace/top level
        match parseInterface trimmedLine lineNum lines with
        | some itf =>
          match st.currentNamespace with
          | some ns => { st with currentNamespace := some (pushChild ns itf) }
          | none => { st with elements := st.elements ++ [itf] }
        | none =>
          match parseEnum trimmedLine lineNum lines with
          | some en =>
            match st.currentNamespace with
            | some ns => { st with currentNamespace := some (pushChild ns en) }
            | none => { st with elements := st.elements ++ [en] }
          | none => st
    | some cls =>
      if st.inMethod then
        match parseMethod trimmedLine lineNum lines cls.name with
        | some me =>
          { st with methodBraceLevel := bc, currentClass := some (pushChild cls me) }
        | none => st
      else
        match parseConstructor trimmedLine lineNum lines cls.name with
        | some ctor =>
          { st with
            inMethod := true, methodBraceLevel := bc,
            currentClass := some (pushChild cls ctor) }
        | none =>
          match parseMethod trimmedLine lineNum lines cls.name with
          | some me =>
            { st with
              inMethod := true, methodBraceLevel := bc,
              currentClass := some (pushChild cls me) }
          | none =>
            match parseProperty trimmedLine lineNum lines with
            | some pr => { st with currentClass := some (pushChild cls pr) }
            | none =>
              match parseField trimmedLine lineNum lines with
              | some f => { st with currentClass := some (pushChild cls f) }
              | none => st

/-- End-of-input flush: frames still open keep their elements, which the
source had already attached by reference when they were discovered. -/
def finish (st : ScanState) : List CodeElement :=
  (closeNamespace (closeClass st)).elements

/-- `CSharpParser.parse`. -/
def parse (lines : List Str) : List CodeElement :=
  finish (lines.enum.foldl (step lines) initState)

end CSharpParser

/-! ## `JavaScriptParser` (dual-mode script / options scanner) -/

namespace JavaScriptParser

/-- `/(?:export\s+)?(?:default\s+)?(?:abstract\s+)?class\s+(\w+)/` -/
def classRe : RE :=
  Rx.cat [Rx.opt (RE.seq (Rx.lit "export") Rx.sp), Rx.opt (RE.seq (Rx.lit "default") Rx.sp),
    Rx.opt (RE.seq (Rx.lit "abstract") Rx.sp), Rx.lit "class", Rx.sp, Rx.g 1 Rx.wp]

/-- `/(?:export\s+)?(?:async\s+)?function\s+(\w+)\s*\(/` -/
def funcRe1 : RE :=
  Rx.cat [Rx.opt (RE.seq (Rx.lit "export") Rx.sp), Rx.opt (RE.seq (Rx.lit "async") Rx.sp),
    Rx.lit "function", Rx.sp, Rx.g 1 Rx.wp, Rx.ss, Rx.lit "("]

/-- `/(?:export\s+)?(?:const|let|var)\s+(\w+)\s*[=:]\s*(?:async\s*)?\(/` -/
def funcRe2 : RE :=
  Rx.cat [Rx.opt (RE.seq (Rx.lit "export") Rx.sp),
    Rx.alts [Rx.lit "const", Rx.lit "let", Rx.lit "var"], Rx.sp, Rx.g 1 Rx.wp, Rx.ss,
    Rx.oneOf "=:", Rx.ss, Rx.opt (RE.seq (Rx.lit "async") Rx.ss), Rx.lit "("]

/-- `/(?:export\s+)?(\w+)\s*[:=]\s*(?:async\s*)?\(/` -/
def funcRe3 : RE :=
  Rx.cat [Rx.opt (RE.seq (Rx.lit "export") Rx.sp), Rx.g 1 Rx.wp, Rx.ss, Rx.oneOf ":=",
    Rx.ss, Rx.opt (RE.seq (Rx.lit "async") Rx.ss), Rx.lit "("]

/-- `/(?:export\s+)?interface\s+(\w+)/` -/
def interfaceRe : RE :=
  Rx.cat [Rx.opt (RE.seq (Rx.lit "export") Rx.sp), Rx.lit "interface", Rx.sp, Rx.g 1 Rx.wp]

def parseClass (line : Str) (lineNum : Nat) (lines : List Str) : Option CodeElement :=
  match reRun false classRe line with
  | some m =>
    some (BaseParser.createElement ((capGet m.1 1).getD []) CodeElementType.Class lineNum line lines
      none none none)
  | none => none

def parseFunction (line : Str) (lineNum : Nat) (lines : List Str) : Option CodeElement :=
  let m := ((reRun false funcRe1 line).orElse (fun _ => reRun false funcRe2 line)).orElse
    (fun _ => reRun false funcRe3 line)
  match m with
  | some mm =>
    some (BaseParser.createElement ((capGet mm.1 1).getD []) CodeElementType.Function lineNum line
      lines none none none)
  | none => none

def parseInterface (line : Str) (lineNum : Nat) (lines : List Str) : Option CodeElement :=
  match reRun false interfaceRe line with
  | some m =>
    some (BaseParser.createElement ((capGet m.1 1).getD []) CodeElementType.Interface lineNum line
      lines none none none)
  | none => none

/-- Net brace count of a line: `(match(/{/g)||[]).length - (match(/}/g)||[]).length`. -/
def netBraces (s : Str) : Int := countChar '\x7b' s - countChar '\x7d' s

/-- `/^\s*(\w+)\s*[:=]\s*(?:function\s*\(|\(|async\s*\(|async\s*function\s*\()/` -/
def methodDefRe1 : RE :=
  Rx.cat [RE.bos, Rx.ss, Rx.g 1 Rx.wp, Rx.ss, Rx.oneOf ":=", Rx.ss,
    Rx.alts [Rx.cat [Rx.lit "function", Rx.ss, Rx.lit "("], Rx.lit "(",
      Rx.cat [Rx.lit "async", Rx.ss, Rx.lit "("],
      Rx.cat [Rx.lit "async", Rx.ss, Rx.lit "function", Rx.ss, Rx.lit "("]]]

/-- `/^\s*(\w+)\s*\(/` -/
def methodDefRe2 : RE := Rx.cat [RE.bos, Rx.ss, Rx.g 1 Rx.wp, Rx.ss, Rx.lit "("]

/-- `/\(([^)]*)\)/` -/
def parenArgsRe : RE := Rx.cat [Rx.lit "(", Rx.g 1 (Rx.star (Rx.noneOf ")")), Rx.lit ")"]

/-- `/^\s*(?:['"]?)(\w+)(?:['"]?)\s*[:=]/` -/
def keyRe : RE :=
  Rx.cat [RE.bos, Rx.ss, Rx.opt (Rx.oneOf "'\""), Rx.g 1 Rx.wp, Rx.opt (Rx.oneOf "'\""),
    Rx.ss, Rx.oneOf ":="]

/-- `/^\s*(?:['"]?)(\w+)(?:['"]?)\s*[:=]\s*(?:function\s*\(|\(|async\s*\(|async\s*function\s*\()/` -/
def watchRe1 : RE :=
  Rx.cat [RE.bos, Rx.ss, Rx.opt (Rx.oneOf "'\""), Rx.g 1 Rx.wp, Rx.opt (Rx.oneOf "'\""),
    Rx.ss, Rx.oneOf ":=", Rx.ss,
    Rx.alts [Rx.cat [Rx.lit "function", Rx.ss, Rx.lit "("], Rx.lit "(",
      Rx.cat [Rx.lit "async", Rx.ss, Rx.lit "("],
      Rx.cat [Rx.lit "async", Rx.ss, Rx.lit "function", Rx.ss, Rx.lit "("]]]

/-- `/^\s*(?:['"]?)(\w+)(?:['"]?)\s*\(/` -/
def watchRe2 : RE :=
  Rx.cat [RE.bos, Rx.ss, Rx.opt (Rx.oneOf "'\""), Rx.g 1 Rx.wp, Rx.opt (Rx.oneOf "'\""),
    Rx.ss, Rx.lit "("]

/-- `/^\s*(\w+)\s*[:=]\s*(?:function\s*\(|\(|{)/` -/
def computedRe : RE :=
  Rx.cat [RE.bos, Rx.ss, Rx.g 1 Rx.wp, Rx.ss, Rx.oneOf ":=", Rx.ss,
    Rx.alts [Rx.cat [Rx.lit "function", Rx.ss, Rx.lit "("], Rx.lit "(", Rx.lit "\x7b"]]

/-- `parseMethodsContent`: scans the `methods` bag between `startLine` and
`endLine`, emitting one method element per recognized entry line. -/
structure MethodsState where
  methods : List CodeElement
  braceCount : Int
  inMethods : Bool
  inMethodBody : Bool
  methodBodyBraceCount : Int
  done : Bool

def methodsStep (lines : List Str) (startLineOffset : Nat) (st : MethodsState) (i : Nat) :
    MethodsState :=
  if st.done then st else
  let line := lines.getD i []
  let trimmedLine := trimL line
  if trimmedLine.isEmpty || startsWithL trimmedLine (str "//") ||
      startsWithL trimmedLine (str "*") then st
  else if includesL trimmedLine (str "methods") && includesL trimmedLine (str "\x7b") then
    { st with inMethods := true, braceCount := netBraces trimmedLine }
  else if !st.inMethods then st
  else
    let lineBraceCount := netBraces trimmedLine
    if st.inMethodBody then
      let mbb := st.methodBodyBraceCount + lineBraceCount
      let st : MethodsState :=
        if mbb ≤ 0 then { st with inMethodBody := false, methodBodyBraceCount := 0 }
        else { st with methodBodyBraceCount := mbb }
      let st : MethodsState := { st with braceCount := st.braceCount + lineBraceCount }
      if st.braceCount ≤ 0 then { st with done := true } else st
    else
      let methodMatch := (reRun false methodDefRe1 trimmedLine).orElse
        (fun _ => reRun false methodDefRe2 trimmedLine)
      match methodMatch with
      | some mm =>
        let methodName := (capGet mm.1 1).getD []
        let parameters := (reG (reRun false parenArgsRe trimmedLine) 1).getD []
        let st : MethodsState :=
          if includesL trimmedLine (str "\x7b") then
            let mbb := netBraces trimmedLine
            if mbb > 0 then { st with inMethodBody := true, methodBodyBraceCount := mbb }
            else { st with methodBodyBraceCount := mbb }
          else st
        let methodElement := BaseParser.createElement methodName CodeElementType.Method
          (i + 1 + startLineOffset) line lines none (some parameters) (some i)
        let st : MethodsState := { st with
          methods := st.methods ++ [methodElement],
          braceCount := st.braceCount + lineBraceCount }
        if st.braceCount ≤ 0 then { st with done := true } else st
      | none =>
        if !st.inMethodBody ∧ trimmedLine = str "\x7b" then
          { st with
            methodBodyBraceCount := 1, inMethodBody := true,
            braceCount := st.braceCount + lineBraceCount }
        else
          let st := { st with braceCount := st.braceCount + lineBraceCount }
          if st.braceCount ≤ 0 then { st with done := true } else st

def parseMethodsContent (lines : List Str) (startLine endLine : Nat) (startLineOffset : Nat) :
    List CodeElement :=
  ((List.range' (startLine - 1) (min endLine lines.length - (startLine - 1))).foldl
    (methodsStep lines startLineOffset) ⟨[], 0, false, false, 0, false⟩).methods

/-- Generic state for the simpler bag scanners (`computed`, `watch`, `props`, `data`). -/
structure BagState where
  items : List CodeElement
  braceCount : Int
  inBag : Bool
  inReturn : Bool
  done : Bool

def computedStep (lines : List Str) (startLineOffset : Nat) (st : BagState) (i : Nat) : BagState :=
  if st.done then st else
  let line := lines.getD i []
  let trimmedLine := trimL line
  if trimmedLine.isEmpty || startsWithL trimmedLine (str "//") ||
      startsWithL trimmedLine (str "*") then st
  else if includesL trimmedLine (str "computed") && includesL trimmedLine (str "\x7b") then
    { st with inBag := true, braceCount := netBraces trimmedLine }
  else if !st.inBag then st
  else
    let st : BagState := { st with braceCount := st.braceCount + netBraces trimmedLine }
    let st : BagState :=
      match reRun false computedRe trimmedLine with
      | some mm =>
        { st with items := st.items ++ [BaseParser.createElement ((capGet mm.1 1).getD [])
            CodeElementType.Property (i + 1 + startLineOffset) line lines none none (some i)] }
      | none => st
    if st.braceCount ≤ 0 then { st with done := true } else st

def parseComputedContent (lines : List Str) (startLine endLine : Nat) (startLineOffset : Nat) :
    List CodeElement :=
  ((List.range' (startLine - 1) (min endLine lines.length - (startLine - 1))).foldl
    (computedStep lines startLineOffset) ⟨[], 0, false, false, false⟩).items

def dataStep (lines : List Str) (startLineOffset : Nat) (st : BagState) (i : Nat) : BagState :=
  if st.done then st else
  let line := lines.getD i []
  let trimmedLine := trimL line
  if trimmedLine.isEmpty || startsWithL trimmedLine (str "//") ||
      startsWithL trimmedLine (str "*") then st
  else if includesL trimmedLine (str "data") &&
      (includesL trimmedLine (str "\x7b") || includesL trimmedLine (str "(")) then
    { st with inBag := true, braceCount := netBraces trimmedLine }
  else if !st.inBag then st
  else if includesL trimmedLine (str "return") && includesL trimmedLine (str "\x7b") then
    { st with inReturn := true, braceCount := netBraces trimmedLine }
  else if !st.inReturn then st
  else
    let st : BagState := { st with braceCount := st.braceCount + netBraces trimmedLine }
    let st : BagState :=
      match reRun false keyRe trimmedLine with
      | some mm =>
        { st with items := st.items ++ [BaseParser.createElement ((capGet mm.1 1).getD [])
            CodeElementType.Variable (i + 1 + startLineOffset) line lines none none (some i)] }
      | none => st
    if st.braceCount ≤ 0 then { st with done := true } else st

def parseDataContent (lines : List Str) (startLine endLine : Nat) (startLineOffset : Nat) :
    List CodeElement :=
  ((List.range' (startLine - 1) (min endLine lines.length - (startLine - 1))).foldl
    (dataStep lines startLineOffset) ⟨[], 0, false, false, false⟩).items

def watchStep (lines : List Str) (startLineOffset : Nat) (st : BagState) (i : Nat) : BagState :=
  if st.done then st else
  let line := lines.getD i []
  let trimmedLine := trimL line
  if trimmedLine.isEmpty || startsWithL trimmedLine (str "//") ||
      startsWithL trimmedLine (str "*") then st
  else if includesL trimmedLine (str "watch") && includesL trimmedLine (str "\x7b") then
    { st with inBag := true, braceCount := netBraces trimmedLine }
  else if !st.inBag then st
  else
    let st : BagState := { st with braceCount := st.braceCount + netBraces trimmedLine }
    let st : BagState :=
      match (reRun false watchRe1 trimmedLine).orElse (fun _ => reRun false watchRe2 trimmedLine) with
      | some mm =>
        { st with items := st.items ++ [BaseParser.createElement ((capGet mm.1 1).getD [])
            CodeElementType.Method (i + 1 + startLineOffset) line lines none none (some i)] }
      | none => st
    if st.braceCount ≤ 0 then { st with done := true } else st

def parseWatchContent (lines : List Str) (startLine endLine : Nat) (startLineOffset : Nat) :
    List CodeElement :=
  ((List.range' (startLine - 1) (min endLine lines.length - (startLine - 1))).foldl
    (watchStep lines startLineOffset) ⟨[], 0, false, false, false⟩).items

def propsStep (lines : List Str) (startLineOffset : Nat) (st : BagState) (i : Nat) : BagState :=
  if st.done then st else
  let line := lines.getD i []
  let trimmedLine := trimL line
  if trimmedLine.isEmpty || startsWithL trimmedLine (str "//") ||
      startsWithL trimmedLine (str "*") then st
  else if includesL trimmedLine (str "props") && includesL trimmedLine (str "\x7b") then
    { st with inBag := true, braceCount := netBraces trimmedLine }
  else if !st.inBag then st
  else
    let st : BagState := { st with braceCount := st.braceCount + netBraces trimmedLine }
    let st : BagState :=
      match reRun false keyRe trimmedLine with
      | some mm =>
        { st with items := st.items ++ [BaseParser.createElement ((capGet mm.1 1).getD [])
            CodeElementType.Property (i + 1 + startLineOffset) line lines none none (some i)] }
      | none => st
    if st.braceCount ≤ 0 then { st with done := true } else st

def parsePropsContent (lines : List Str) (startLine endLine : Nat) (startLineOffset : Nat) :
    List CodeElement :=
  ((List.range' (startLine - 1) (min endLine lines.length - (startLine - 1))).foldl
    (propsStep lines startLineOffset) ⟨[], 0, false, false, false⟩).items

/-- `/^\s*name\s*[:=]\s*['"]([^'"]+)['"]/` -/
def namePropRe : RE :=
  Rx.cat [RE.bos, Rx.ss, Rx.lit "name", Rx.ss, Rx.oneOf ":=", Rx.ss, Rx.oneOf "'\"",
    Rx.g 1 (Rx.plus (Rx.noneOf "'\"")), Rx.oneOf "'\""]

/-- `/^\s*data\s*[:=]\s*(?:\([^)]*\)\s*=>\s*)?{/` (also the shape of `setup`). -/
def arrowBagRe (nm : String) : RE :=
  Rx.cat [RE.bos, Rx.ss, Rx.lit nm, Rx.ss, Rx.oneOf ":=", Rx.ss,
    Rx.opt (Rx.cat [Rx.lit "(", Rx.star (Rx.noneOf ")"), Rx.lit ")", Rx.ss, Rx.lit "=>", Rx.ss]),
    Rx.lit "\x7b"]

/-- `/^\s*NAME\s*[:=]\s*{/` for the plain bag keys. -/
def plainBagRe (nm : String) : RE :=
  Rx.cat [RE.bos, Rx.ss, Rx.lit nm, Rx.ss, Rx.oneOf ":=", Rx.ss, Rx.lit "\x7b"]

/-- `/^\s*NAME\s*\([^)]*\)\s*{/` for the lifecycle hooks. -/
def lifecycleRe (nm : String) : RE :=
  Rx.cat [RE.bos, Rx.ss, Rx.lit nm, Rx.ss, Rx.lit "(", Rx.star (Rx.noneOf ")"), Rx.lit ")",
    Rx.ss, Rx.lit "\x7b"]

/-- The `vuePropertyPatterns` table, in source order: key name, pattern, type. -/
def vuePropertyPatterns : List (String × RE × String) :=
  [("name", namePropRe, "property"),
   ("data", arrowBagRe "data", "data"),
   ("methods", plainBagRe "methods", "methods"),
   ("computed", plainBagRe "computed", "computed"),
   ("watch", plainBagRe "watch", "watch"),
   ("props", plainBagRe "props", "props"),
   ("components", plainBagRe "components", "components"),
   ("mounted", lifecycleRe "mounted", "lifecycle"),
   ("created", lifecycleRe "created", "lifecycle"),
   ("beforeMount", lifecycleRe "beforeMount", "lifecycle"),
   ("beforeDestroy", lifecycleRe "beforeDestroy", "lifecycle"),
   ("destroyed", lifecycleRe "destroyed", "lifecycle"),
   ("beforeCreate", lifecycleRe "beforeCreate", "lifecycle"),
   ("beforeUpdate", lifecycleRe "beforeUpdate", "lifecycle"),
   ("updated", lifecycleRe "updated", "lifecycle"),
   ("activated", lifecycleRe "activated", "lifecycle"),
   ("deactivated", lifecycleRe "deactivated", "lifecycle"),
   ("setup", arrowBagRe "setup", "setup")]

/-- A tracked bag property: name, 1-based start line, running brace count, type. -/
structure CurrentProperty where
  name : Str
  startLine : Nat
  braceCount : Int
  ptype : String

structure EDPState where
  properties : List CodeElement
  braceCount : Int
  inExportDefault : Bool
  currentProperty : Option CurrentProperty
  done : Bool

/-- Set the children of the first property whose name matches
(`properties.find(p => p.name === currentProperty.name)` plus mutation). -/
def setChildrenFirst : List CodeElement → Str → List CodeElement → List CodeElement
  | [], _, _ => []
  | e :: rest, nm, ch =>
    if e.name = nm then { e with children := ch } :: rest
    else e :: setChildrenFirst rest nm ch

def bagChildren (lines : List Str) (cp : CurrentProperty) (i : Nat) (startLineOffset : Nat)
    (old : List CodeElement) : List CodeElement :=
  if cp.ptype = "methods" then parseMethodsContent lines cp.startLine (i + 1) startLineOffset
  else if cp.ptype = "computed" then parseComputedContent lines cp.startLine (i + 1) startLineOffset
  else if cp.ptype = "data" then parseDataContent lines cp.startLine (i + 1) startLineOffset
  else if cp.ptype = "watch" then parseWatchContent lines cp.startLine (i + 1) startLineOffset
  else if cp.ptype = "props" then parsePropsContent lines cp.startLine (i + 1) startLineOffset
  else old

def edpStep (lines : List Str) (startLineOffset : Nat) (st : EDPState) (i : Nat) : EDPState :=
  if st.done then st else
  let line := lines.getD i []
  let trimmedLine := trimL line
  if trimmedLine.isEmpty || startsWithL trimmedLine (str "//") ||
      startsWithL trimmedLine (str "*") then st
  else if includesL trimmedLine (str "export default") && includesL trimmedLine (str "\x7b") then
    { st with inExportDefault := true, braceCount := netBraces trimmedLine }
  else if !st.inExportDefault then st
  else
    let lineBraceCount := netBraces trimmedLine
    let st : EDPState := { st with braceCount := st.braceCount + lineBraceCount }
    match st.currentProperty with
    | some cp =>
      let cp : CurrentProperty := { cp with braceCount := cp.braceCount + lineBraceCount }
      if cp.braceCount ≤ 0 then
        let newChildren := bagChildren lines cp i startLineOffset
          ((st.properties.find? (fun p => p.name == cp.name)).map (fun p => p.children) |>.getD [])
        { st with
          properties := setChildrenFirst st.properties cp.name newChildren,
          currentProperty := none }
      else { st with currentProperty := some cp }
    | none =>
      let st : EDPState :=
        match vuePropertyPatterns.find? (fun p => reTest false p.2.1 trimmedLine) with
        | some (nm, _, ty) =>
          let element := BaseParser.createElement (str nm) CodeElementType.Property
            (i + 1 + startLineOffset) line lines none none (some i)
          let st : EDPState := { st with properties := st.properties ++ [element] }
          if ty = "methods" ∨ ty = "computed" ∨ ty = "data" ∨ ty = "watch" ∨ ty = "props" then
            { st with currentProperty := some ⟨str nm, i + 1, netBraces trimmedLine, ty⟩ }
          else st
        | none => st
      if st.braceCount ≤ 0 then { st with done := true } else st

/-- `parseExportDefaultProperties`: scans from the `export default` line to
the end of the object, emitting one element per recognized option key. -/
def parseExportDefaultProperties (lines : List Str) (startLine : Nat) (startLineOffset : Nat) :
    List CodeElement :=
  ((List.range' (startLine - 1) (lines.length - (startLine - 1))).foldl
    (edpStep lines startLineOffset) ⟨[], 0, false, none, false⟩).properties

structure JSState where
  elements : List CodeElement
  inExportDefault : Bool
  braceCount : Int

/-- Per-line transition of `JavaScriptParser.parse`. -/
def step (lines : List Str) (startLineOffset : Nat) (st : JSState) (p : Nat × Str) : JSState :=
  let lineNum := p.1 + 1
  let line := p.2
  let trimmedLine := trimL line
  if trimmedLine.isEmpty || startsWithL trimmedLine (str "//") ||
      startsWithL trimmedLine (str "*") || startsWithL trimmedLine (str "/**") then st
  else if includesL trimmedLine (str "export default") && includesL trimmedLine (str "\x7b") then
    let exportDefaultStartLine := lineNum + startLineOffset
    let bc0 := netBraces trimmedLine
    let children :=
      if bc0 > 0 then parseExportDefaultProperties lines lineNum startLineOffset else []
    let exportDefaultElement : CodeElement :=
      { name := str "export default", type := CodeElementType.Class,
        accessModifier := AccessModifier.Default, line := exportDefaultStartLine,
        comment := none, children := children }
    { elements := st.elements ++ [exportDefaultElement], inExportDefault := true,
      braceCount := bc0 }
  else if st.inExportDefault then
    let bc := st.braceCount + netBraces trimmedLine
    { st with braceCount := bc, inExportDefault := !(bc ≤ 0) }
  else
    match parseClass trimmedLine lineNum lines with
    | some c => { st with elements := st.elements ++ [c] }
    | none =>
      match parseFunction trimmedLine lineNum lines with
      | some f => { st with elements := st.elements ++ [f] }
      | none =>
        match parseInterface trimmedLine lineNum lines with
        | some itf => { st with elements := st.elements ++ [itf] }
        | none => st

/-- `JavaScriptParser.parse(document, lines, startLineOffset)`. -/
def parse (lines : List Str) (startLineOffset : Nat) : List CodeElement :=
  (lines.enum.foldl (step lines startLineOffset) ⟨[], false, 0⟩).elements

end JavaScriptParser

/-! ## `VueParser` (container scanner and tag-stack template scanner) -/

namespace VueParser

/-- `/^<template\s/` -/
def templateOpenRe : RE := Rx.cat [RE.bos, Rx.lit "<template", Rx.s]

/-- `/^<style\s/` -/
def styleOpenRe : RE := Rx.cat [RE.bos, Rx.lit "<style", Rx.s]

structure VueState where
  elements : List CodeElement
  inScriptTag : Bool
  scriptContent : List Str
  scriptIdx : Option Nat
  inTemplate : Bool
  inStyle : Bool

/-- Per-line transition of `VueParser.parse`.  `scriptIdx` models the
`scriptElement` object reference: the index in `elements` of the open
script element, updated in place when `</script>` is reached. -/
def step (st : VueState) (p : Nat × Str) : VueState :=
  let lineNum := p.1 + 1
  let line := p.2
  let trimmedLine := trimL line
  if startsWithL trimmedLine (str "<template") || reTest false templateOpenRe trimmedLine then
    { st with inTemplate := true }
  else if st.inTemplate && includesL trimmedLine (str "</template>") then
    { st with inTemplate := false }
  else if st.inTemplate then st
  else if includesL trimmedLine (str "<script") then
    let scriptElement : CodeElement :=
      { name := str "script", type := CodeElementType.Module,
        accessModifier := AccessModifier.Default, line := lineNum, children := [] }
    { st with
      inScriptTag := true, elements := st.elements ++ [scriptElement],
      scriptIdx := some st.elements.length }
  else if st.inScriptTag && includesL trimmedLine (str "</script>") then
    let st : VueState :=
      if !st.scriptContent.isEmpty then
        match st.scriptIdx with
        | some idx =>
          match st.elements.get? idx with
          | some el =>
            let scriptElements := JavaScriptParser.parse st.scriptContent (el.line + 1)
            if scriptElements.length > 0 then
              { st with elements := st.elements.set idx { el with children := scriptElements } }
            else st
          | none => st
        | none => st
      else st
    { st with inScriptTag := false, scriptContent := [], scriptIdx := none }
  else
    let st : VueState :=
      if st.inScriptTag then { st with scriptContent := st.scriptContent ++ [line] } else st
    if startsWithL trimmedLine (str "<style") || reTest false styleOpenRe trimmedLine then
      let isScoped := includesL trimmedLine (str "scoped")
      let styleElement : CodeElement :=
        { name := if isScoped then str "style scoped" else str "style",
          type := CodeElementType.Module, accessModifier := AccessModifier.Default,
          line := lineNum, children := [] }
      { st with inStyle := true, elements := st.elements ++ [styleElement] }
    else if st.inStyle && includesL trimmedLine (str "</style>") then
      { st with inStyle := false }
    else st

/-- `VueParser.parse`: region split; falls back to parsing everything as
script only when no region produced an element and script content exists. -/
def parse (lines : List Str) : List CodeElement :=
  let st := lines.enum.foldl step ⟨[], false, [], none, false, false⟩
  if st.elements.isEmpty && !st.scriptContent.isEmpty then
    JavaScriptParser.parse st.scriptContent 0
  else st.elements

/-- `/<([a-zA-Z][\w-]*)[^>]*>/` -/
def startTagRe : RE :=
  Rx.cat [Rx.lit "<",
    Rx.g 1 (RE.seq (RE.cls false [ClsItem.range 'a' 'z', ClsItem.range 'A' 'Z'])
      (Rx.star (RE.cls false [ClsItem.word, ClsItem.chr '-']))),
    Rx.star (Rx.noneOf ">"), Rx.lit ">"]

/-- `/\/\s*>$/` -/
def selfCloseEndRe : RE := Rx.cat [Rx.lit "/", Rx.ss, Rx.lit ">", RE.eos]

/-- `/<[^>]+\/>/` -/
def selfCloseInnerRe : RE :=
  Rx.cat [Rx.lit "<", Rx.plus (Rx.noneOf ">"), Rx.lit "/>"]

/-- `/id\s*=\s*["']([^"']+)["']/` -/
def idAttrRe : RE :=
  Rx.cat [Rx.lit "id", Rx.ss, Rx.lit "=", Rx.ss, Rx.oneOf "\"'",
    Rx.g 1 (Rx.plus (Rx.noneOf "\"'")), Rx.oneOf "\"'"]

/-- `/class\s*=\s*["']([^"']+)["']/` -/
def classAttrRe : RE :=
  Rx.cat [Rx.lit "class", Rx.ss, Rx.lit "=", Rx.ss, Rx.oneOf "\"'",
    Rx.g 1 (Rx.plus (Rx.noneOf "\"'")), Rx.oneOf "\"'"]

/-- `/<\/(\w+)>/` -/
def endTagRe : RE := Rx.cat [Rx.lit "</", Rx.g 1 Rx.wp, Rx.lit ">"]

/-- The children list at a path into the forest under construction. -/
def childrenAt (f : List CodeElement) : List Nat → List CodeElement
  | [] => f
  | i :: rest =>
    match f.get? i with
    | some e => childrenAt e.children rest
    | none => []

/-- Append a child at a path into the forest (the source mutates the parent
element through the reference stored on the stack). -/
def appendAt (f : List CodeElement) (path : List Nat) (c : CodeElement) : List CodeElement :=
  match path with
  | [] => f ++ [c]
  | i :: rest =>
    match f.get? i with
    | some e => f.set i { e with children := appendAt e.children rest c }
    | none => f

/-- Pop the nearest stack frame (top first) whose tag name matches; decrement
its counter and remove it once the counter reaches zero. -/
def popMatch : List (List Nat × Str × Int) → Str → List (List Nat × Str × Int)
  | [], _ => []
  | (p, tn, cnt) :: rest, nm =>
    if tn = nm then
      if cnt - 1 ≤ 0 then rest else (p, tn, cnt - 1) :: rest
    else (p, tn, cnt) :: popMatch rest nm

structure TplState where
  forest : List CodeElement
  stack : List (List Nat × Str × Int)

/-- Per-line transition of `VueParser.parseTemplateContent`. -/
def tplStep (startLine : Nat) (st : TplState) (p : Nat × Str) : TplState :=
  let currentLine := startLine + p.1
  let trimmedLine := trimL p.2
  if trimmedLine.isEmpty || startsWithL trimmedLine (str "<!--") then st
  else
    match reRun false startTagRe trimmedLine with
    | some m =>
      let tagName := (capGet m.1 1).getD []
      if [str "script", str "style", str "template"].any (fun t => t == toLowerL tagName) then st
      else
        let isSelfClosing := reTest false selfCloseEndRe trimmedLine ||
          reTest false selfCloseInnerRe trimmedLine
        let name :=
          match reG (reRun false idAttrRe trimmedLine) 1 with
          | some v => v
          | none =>
            match reG (reRun false classAttrRe trimmedLine) 1 with
            | some v => v
            | none => tagName
        let element : CodeElement :=
          { name := name, type := CodeElementType.Module,
            accessModifier := AccessModifier.Default, line := currentLine, children := [],
            tagName := some tagName }
        if !isSelfClosing then
          let tagCount : Int :=
            if includesL trimmedLine (str "</" ++ tagName ++ str ">") then 0 else 1
          match st.stack.head? with
          | none =>
            let newPath := [st.forest.length]
            let forest := st.forest ++ [element]
            if tagCount > 0 then { forest := forest, stack := (newPath, tagName, tagCount) :: st.stack }
            else { st with forest := forest }
          | some (ppath, _, _) =>
            let newPath := ppath ++ [(childrenAt st.forest ppath).length]
            let forest := appendAt st.forest ppath element
            if tagCount > 0 then { forest := forest, stack := (newPath, tagName, tagCount) :: st.stack }
            else { st with forest := forest }
        else
          match st.stack.head? with
          | none => { st with forest := st.forest ++ [element] }
          | some (ppath, _, _) => { st with forest := appendAt st.forest ppath element }
    | none =>
      match reRun false endTagRe trimmedLine with
      | some m =>
        if st.stack.isEmpty then st
        else { st with stack := popMatch st.stack ((capGet m.1 1).getD []) }
      | none => st

/-- `VueParser.parseTemplateContent` (tag-stack markup scanner). -/
def parseTemplateContent (lines : List Str) (startLine : Nat) : List CodeElement :=
  (lines.enum.foldl (tplStep startLine) ⟨[], []⟩).forest

end VueParser

/-! ## `HtmlParser` (flat scanner for `.html` files) -/

namespace HtmlParser

/-- `/<script[^>]*>/` -/
def scriptTagRe : RE := Rx.cat [Rx.lit "<script", Rx.star (Rx.noneOf ">"), Rx.lit ">"]

/-- `/id\s*=\s*["'](\w+)["']/` -/
def idRe : RE :=
  Rx.cat [Rx.lit "id", Rx.ss, Rx.lit "=", Rx.ss, Rx.oneOf "\"'", Rx.g 1 Rx.wp, Rx.oneOf "\"'"]

/-- `/src\s*=\s*["']([^"']+)["']/` -/
def srcRe : RE :=
  Rx.cat [Rx.lit "src", Rx.ss, Rx.lit "=", Rx.ss, Rx.oneOf "\"'",
    Rx.g 1 (Rx.plus (Rx.noneOf "\"'")), Rx.oneOf "\"'"]

/-- `/<(div|section|article|main|header|footer|nav|aside)[^>]*(?:id\s*=\s*["'](\w+)["']|class\s*=\s*["']([\w\s-]+)["'])?/` -/
def mainRe : RE :=
  Rx.cat [Rx.lit "<",
    Rx.g 1 (Rx.alts [Rx.lit "div", Rx.lit "section", Rx.lit "article", Rx.lit "main",
      Rx.lit "header", Rx.lit "footer", Rx.lit "nav", Rx.lit "aside"]),
    Rx.star (Rx.noneOf ">"),
    Rx.opt (RE.alt
      (Rx.cat [Rx.lit "id", Rx.ss, Rx.lit "=", Rx.ss, Rx.oneOf "\"'", Rx.g 2 Rx.wp, Rx.oneOf "\"'"])
      (Rx.cat [Rx.lit "class", Rx.ss, Rx.lit "=", Rx.ss, Rx.oneOf "\"'",
        Rx.g 3 (Rx.plus (RE.cls false [ClsItem.word, ClsItem.space, ClsItem.chr '-'])),
        Rx.oneOf "\"'"]))]

def parseScriptTag (line : Str) (lineNum : Nat) (lines : List Str) : Option CodeElement :=
  if reTest false scriptTagRe line then
    let name :=
      match reG (reRun false idRe line) 1 with
      | some v => v
      | none =>
        match reG (reRun false srcRe line) 1 with
        | some v => v
        | none => str "script"
    some (BaseParser.createElement name CodeElementType.Module lineNum line lines none none none)
  else none

def parseMainElement (line : Str) (lineNum : Nat) (lines : List Str) : Option CodeElement :=
  match reRun false mainRe line with
  | some m =>
    let tagName := (capGet m.1 1).getD []
    let name :=
      match capGet m.1 2 with
      | some v => v
      | none =>
        match capGet m.1 3 with
        | some v => v
        | none => tagName
    some (BaseParser.createElement name CodeElementType.Module lineNum line lines none none none)
  | none => none

/-- `HtmlParser.parse`: flat scan, one element per matching line. -/
def parse (lines : List Str) : List CodeElement :=
  (lines.enum.foldl (fun acc p =>
    let lineNum := p.1 + 1
    let trimmedLine := trimL p.2
    if trimmedLine.isEmpty || startsWithL trimmedLine (str "<!--") ||
        startsWithL trimmedLine (str "//") then acc
    else
      match parseScriptTag trimmedLine lineNum lines with
      | some e => acc ++ [e]
      | none =>
        match parseMainElement trimmedLine lineNum lines with
        | some e => acc ++ [e]
        | none => acc) [])

end HtmlParser

/-! ## `ParserFactory` (dispatcher) -/

/-- The parser constructors known to the factory; `otherParser` stands for any
constructor registered at runtime by a collaborator. -/
inductive ParserCtor where
  | CSharpParser
  | JavaParser
  | JavaScriptParser
  | VueParser
  | HtmlParser
  | otherParser (id : Nat)
  deriving DecidableEq, Inhabited

namespace ParserFactory

/-- JavaScript `Map.get`. -/
def mapGet (m : List (Str × ParserCtor)) (k : Str) : Option ParserCtor :=
  (m.find? (fun p => p.1 == k)).map (fun p => p.2)

/-- JavaScript `Map.set`: overwrite the existing entry for the key in place
(keys are unique in a `Map`), else append a new entry. -/
def mapSet : List (Str × ParserCtor) → Str → ParserCtor → List (Str × ParserCtor)
  | [], k, v => [(k, v)]
  | p :: m, k, v => if p.1 == k then (k, v) :: m else p :: mapSet m k v

/-- The initial `parsers` map. -/
def defaultParsers : List (Str × ParserCtor) :=
  [(str ".cs", ParserCtor.CSharpParser), (str ".java", ParserCtor.JavaParser),
   (str ".js", ParserCtor.JavaScriptParser), (str ".ts", ParserCtor.JavaScriptParser),
   (str ".vue", ParserCtor.VueParser), (str ".html", ParserCtor.HtmlParser),
   (str ".htm", ParserCtor.HtmlParser)]

/-- `filePath.substring(filePath.lastIndexOf('.')).toLowerCase()`; when there
is no dot, `lastIndexOf` yields `-1` and `substring(-1)` is the whole string. -/
def extOf (filePath : Str) : Str :=
  toLowerL (match lastIndexOfChar filePath '.' with
    | some i => filePath.drop i
    | none => filePath)

/-- `createParser`: `null` (here `none`) when no factory is registered. -/
def createParser (parsers : List (Str × ParserCtor)) (filePath : Str) : Option ParserCtor :=
  mapGet parsers (extOf filePath)

/-- `registerParser`: lower-cases the key and overwrites any existing mapping. -/
def registerParser (parsers : List (Str × ParserCtor)) (extension : Str) (ctor : ParserCtor) :
    List (Str × ParserCtor) :=
  mapSet parsers (toLowerL extension) ctor

/-- `isSupported`. -/
def isSupported (parsers : List (Str × ParserCtor)) (filePath : Str) : Bool :=
  (mapGet parsers (extOf filePath)).isSome

end ParserFactory

/-! ## Helper lemmas about `createElement` and `pseudoChildren` -/

theorem createElement_type (n : Str) (t : CodeElementType) (l : Nat) (lt : Str)
    (ls : List Str) (rt ps : Option Str) (li : Option Nat) :
    (BaseParser.createElement n t l lt ls rt ps li).type = t := by
  unfold BaseParser.createElement
  split <;> split <;> rfl

theorem createElement_name (n : Str) (t : CodeElementType) (l : Nat) (lt : Str)
    (ls : List Str) (rt ps : Option Str) (li : Option Nat) :
    (BaseParser.createElement n t l lt ls rt ps li).name = n := by
  unfold BaseParser.createElement
  split <;> split <;> rfl

theorem createElement_params (n : Str) (t : CodeElementType) (l : Nat) (lt : Str)
    (ls : List Str) (rt ps : Option Str) (li : Option Nat) :
    (BaseParser.createElement n t l lt ls rt ps li).params = none := by
  unfold BaseParser.createElement
  split <;> split <;> rfl

theorem createElement_returns (n : Str) (t : CodeElementType) (l : Nat) (lt : Str)
    (ls : List Str) (rt ps : Option Str) (li : Option Nat) :
    (BaseParser.createElement n t l lt ls rt ps li).returns =
      (BaseParser.extractXmlCommentInfo ls
        (match li with | some i => i | none => l - 1)).returns := by
  unfold BaseParser.createElement
  split <;> split <;> rfl

/-- Shape of the synthesized pseudo-children: projected to names, and to the
names/comments of the per-parameter grandchildren, the list is exactly the
description node, then the parameters node, then the returns node, each
included precisely when its source datum is non-empty. -/
theorem pseudoChildren_shape (line : Nat) (comment : Option Str) (params : List (Str × Str))
    (returns : Option Str) :
    (BaseParser.pseudoChildren line comment params returns).map
        (fun c => (c.name, c.children.map (fun g => (g.name, g.comment)))) =
      (if (match comment with | some c => !c.isEmpty | none => false) then
        [(BaseParser.descName, ([] : List (Str × Option Str)))] else []) ++
      (if !params.isEmpty then
        [(BaseParser.paramsName, params.map (fun p => (p.1, some (stripLead '/' p.2))))] else []) ++
      (if (match returns with | some r => !r.isEmpty | none => false) then
        [(BaseParser.returnsName, ([] : List (Str × Option Str)))] else []) := by
  unfold BaseParser.pseudoChildren
  dsimp only
  cases comment with
  | none =>
    cases returns with
    | none =>
      by_cases hp : params.isEmpty <;>
        simp [hp, List.map_map, Function.comp]
    | some r =>
      by_cases hp : params.isEmpty <;> by_cases hr : r.isEmpty <;>
        simp [hp, hr, List.map_map, Function.comp]
  | some c =>
    cases returns with
    | none =>
      by_cases hc : c.isEmpty <;> by_cases hp : params.isEmpty <;>
        simp [hc, hp, List.map_map, Function.comp]
    | some r =>
      by_cases hc : c.isEmpty <;> by_cases hp : params.isEmpty <;> by_cases hr : r.isEmpty <;>
        simp [hc, hp, hr, List.map_map, Function.comp]

/-- Field invariants of the synthesized pseudo-children: every node carries
the parent's line, kind variable, default accessibility; only the parameters
node has children, themselves satisfying the same field invariants with no
further children. -/
theorem pseudoChildren_all (line : Nat) (comment : Option Str) (params : List (Str × Str))
    (returns : Option Str) :
    ((BaseParser.pseudoChildren line comment params returns).all fun c =>
      c.line == line && c.type == CodeElementType.Variable &&
      c.accessModifier == AccessModifier.Default &&
      (c.name == BaseParser.paramsName || c.children.isEmpty) &&
      c.children.all (fun g => g.line == line && g.type == CodeElementType.Variable &&
        g.accessModifier == AccessModifier.Default && g.children.isEmpty)) = true := by
  rw [List.all_eq_true]
  intro c hc
  unfold BaseParser.pseudoChildren at hc
  dsimp only at hc
  rw [List.mem_append, List.mem_append] at hc
  rcases hc with (hc | hc) | hc
  · rcases comment with _ | c0
    · simp at hc
    · by_cases h0 : c0.isEmpty
      · simp [h0] at hc
      · simp [h0] at hc
        subst hc
        simp
  · by_cases hp : params.isEmpty
    · simp [hp] at hc
    · simp [hp] at hc
      subst hc
      simp [List.all_eq_true, List.mem_map]
      rintro g p1 p2 hmem rfl
      simp
  · rcases returns with _ | r0
    · simp at hc
    · by_cases h0 : r0.isEmpty
      · simp [h0] at hc
      · simp [h0] at hc
        subst hc
        simp

/-! ## Claim C1 -/

def c1CexInput : List Str :=
  [str "class Bar \x7b", str "public int Bar(int x) \x7b\x7d", str "\x7d"]

def c1CexMethod : CodeElement :=
  { name := str "Bar", type := CodeElementType.Method, accessModifier := AccessModifier.Public,
    line := 2, returnType := some (str "int"), parameters := some (str "int x"), children := [] }

def c1CexClass : CodeElement :=
  { name := str "Bar", type := CodeElementType.Class, accessModifier := AccessModifier.Default,
    line := 1, children := [c1CexMethod] }

/-- Claim C1, counterexample: inside `class Bar`, the line
`public int Bar(int x) \x7b\x7d` has callable name `Bar` equal to the enclosing
class name, yet the scanner classifies it as a method (the method pattern
captures return type `int`, which differs from the name), refuting the
"if" direction of the claimed iff. -/
theorem claim_C1_counterexample :
    CSharpParser.parse c1CexInput = [c1CexClass] ∧
    CodeElementType.Method ≠ CodeElementType.Constructor :=
  ⟨rfl, by decide⟩

def c1ExampleInput : List Str :=
  [str "namespace Foo \x7b", str "class Bar \x7b", str "public Bar() \x7b\x7d",
   str "public void Baz(int x) \x7b\x7d", str "\x7d", str "\x7d"]

def c1ExampleCtor : CodeElement :=
  { name := str "Bar", type := CodeElementType.Constructor,
    accessModifier := AccessModifier.Public, line := 3,
    parameters := some (str ""), children := [] }

def c1ExampleBaz : CodeElement :=
  { name := str "Baz", type := CodeElementType.Method,
    accessModifier := AccessModifier.Public, line := 4,
    returnType := some (str "void"), parameters := some (str "int x"), children := [] }

def c1ExampleBar : CodeElement :=
  { name := str "Bar", type := CodeElementType.Class,
    accessModifier := AccessModifier.Default, line := 2,
    children := [c1ExampleCtor, c1ExampleBaz] }

def c1ExampleFoo : CodeElement :=
  { name := str "Foo", type := CodeElementType.Namespace,
    accessModifier := AccessModifier.Default, line := 1, children := [c1ExampleBar] }

def c1PriorityLine : Str :=
  str "public Bar(int x) \x7b \x7d public void M(int y) \x7b\x7d"

def c1PriorityInput : List Str :=
  [str "class Bar \x7b", c1PriorityLine, str "\x7d"]

def c1PriorityCtor : CodeElement :=
  { name := str "Bar", type := CodeElementType.Constructor,
    accessModifier := AccessModifier.Public, line := 2,
    parameters := some (str "int x"), children := [] }

def c1PriorityClass : CodeElement :=
  { name := str "Bar", type := CodeElementType.Class,
    accessModifier := AccessModifier.Default, line := 1, children := [c1PriorityCtor] }

/-- Claim C1, amended: an element is classified constructor only if its
callable name equals the enclosing class name (both producers of
constructor-kind elements check this); on a line matching both the
constructor and the method pattern, constructor detection takes priority;
and the `namespace Foo` example yields the stated tree.  The converse of the
iff fails (see the counterexample). -/
theorem claim_C1_amended :
    CSharpParser.parse c1ExampleInput = [c1ExampleFoo] ∧
    (∀ (l : Str) (n : Nat) (ls : List Str) (cn : Str),
      (CSharpParser.parseConstructor l n ls cn).elim True
        (fun e => e.type = CodeElementType.Constructor ∧ e.name = cn)) ∧
    (∀ (l : Str) (n : Nat) (ls : List Str) (cn : Str),
      (CSharpParser.parseMethod l n ls cn).elim True
        (fun e => e.type = CodeElementType.Constructor → e.name = cn)) ∧
    (CSharpParser.parse c1PriorityInput = [c1PriorityClass] ∧
     (CSharpParser.parseConstructor c1PriorityLine 2 c1PriorityInput (str "Bar")).isSome = true ∧
     (CSharpParser.parseMethod c1PriorityLine 2 c1PriorityInput (str "Bar")).isSome = true) := by
  refine ⟨rfl, ?_, ?_, rfl, rfl, rfl⟩
  · intro l n ls cn
    unfold CSharpParser.parseConstructor
    split
    · trivial
    · dsimp only
      split
      · split
        · next h => exact ⟨createElement_type .., (createElement_name ..).trans h⟩
        · trivial
      · trivial
  · intro l n ls cn
    unfold CSharpParser.parseMethod
    split
    · trivial
    · dsimp only
      split
      · split
        · next h =>
          intro _
          exact (createElement_name ..).trans h.2
        · intro hty
          rw [createElement_type ..] at hty
          cases hty
      · trivial

/-- Claim C1, witness for the pattern-level conjuncts: a concrete successful
constructor classification satisfying the only-if direction. -/
theorem claim_C1_witness :
    (CSharpParser.parseConstructor (str "public Bar() \x7b\x7d") 3 c1ExampleInput
        (str "Bar")).elim True
      (fun e => e.type = CodeElementType.Constructor ∧ e.name = str "Bar") :=
  claim_C1_amended.2.1 (str "public Bar() \x7b\x7d") 3 c1ExampleInput (str "Bar")

/-! ## Claim C2 -/

def c2Input : List Str :=
  [str "/// <summary>S</summary>", str "function foo() \x7b\x7d"]

def c2FooFn : CodeElement :=
  { name := str "foo", type := CodeElementType.Function,
    accessModifier := AccessModifier.Default, line := 2,
    comment := some (str "S"), children := [] }

/-- Claim C2, counterexample: a function-kind element whose documentation
yielded a summary gets no synthesized pseudo-children at all — the builder
synthesizes them only for methods and constructors, not functions. -/
theorem claim_C2_counterexample :
    JavaScriptParser.parse c2Input 0 = [c2FooFn] ∧
    (BaseParser.extractXmlCommentInfo c2Input 1).summary = some (str "S") ∧
    c2FooFn.children = [] :=
  ⟨rfl, rfl, rfl⟩

/-- Claim C2, amended: for every element of kind constructor or method (kind
function is excluded), the builder synthesizes up to three pseudo-elements as
the children, in the fixed order description, parameters (holding one node
per documented parameter), returns, each included exactly when its source
datum is non-empty. -/
theorem claim_C2_amended :
    ∀ (name : Str) (line : Nat) (lineText : Str) (lines : List Str)
      (rt ps : Option Str) (li : Option Nat) (ty : CodeElementType),
      (ty = CodeElementType.Method ∨ ty = CodeElementType.Constructor) →
      ((BaseParser.createElement name ty line lineText lines rt ps li).children.map
          (fun c => (c.name, c.children.map (fun g => (g.name, g.comment)))) =
        (if (match (BaseParser.createElement name ty line lineText lines rt ps li).comment with
              | some c => !c.isEmpty | none => false) then
          [(BaseParser.descName, ([] : List (Str × Option Str)))] else []) ++
        (if !(BaseParser.extractXmlCommentInfo lines
              (match li with | some i => i | none => line - 1)).params.isEmpty then
          [(BaseParser.paramsName,
            (BaseParser.extractXmlCommentInfo lines
              (match li with | some i => i | none => line - 1)).params.map
                (fun p => (p.1, some (stripLead '/' p.2))))] else []) ++
        (if (match (BaseParser.createElement name ty line lineText lines rt ps li).returns with
              | some r => !r.isEmpty | none => false) then
          [(BaseParser.returnsName, ([] : List (Str × Option Str)))] else [])) := by
  intro name line lineText lines rt ps li ty hty
  unfold BaseParser.createElement
  cases li with
  | none =>
    dsimp only
    rw [if_pos hty]
    exact pseudoChildren_shape ..
  | some i =>
    dsimp only
    rw [if_pos hty]
    exact pseudoChildren_shape ..

def c2WitnessInput : List Str :=
  [str "/// <summary>Add two numbers</summary>", str "/// <param name=\"a\">first</param>",
   str "public int Add(int a,int b)\x7b\x7d"]

/-- Claim C2, witness: the amended statement applied to a concrete documented
method, with the pseudo-children evaluated. -/
theorem claim_C2_witness :
    (BaseParser.createElement (str "Add") CodeElementType.Method 3
        (str "public int Add(int a,int b)\x7b\x7d") c2WitnessInput
        (some (str "int")) (some (str "int a,int b")) none).children.map
      (fun c => (c.name, c.children.map (fun g => (g.name, g.comment)))) =
      [(BaseParser.descName, []),
       (BaseParser.paramsName, [(str "a", some (str "first"))])] := by
  have h := claim_C2_amended (str "Add") 3 (str "public int Add(int a,int b)\x7b\x7d")
    c2WitnessInput (some (str "int")) (some (str "int a,int b")) none
    CodeElementType.Method (Or.inl rfl)
  rw [h]
  rfl

/-! ## Claim C3 -/

def c3Input : List Str :=
  [str "class Bar \x7b", str "public void M() \x7b\x7d"]

def c3Method : CodeElement :=
  { name := str "M", type := CodeElementType.Method, accessModifier := AccessModifier.Public,
    line := 2, returnType := some (str "void"), parameters := some (str ""), children := [] }

def c3Class : CodeElement :=
  { name := str "Bar", type := CodeElementType.Class, accessModifier := AccessModifier.Default,
    line := 1, children := [c3Method] }

/-- Claim C3: the scanner is a total function of the line list (the embedding
is a plain function, and no operation on the scan path of the source can
throw), and on a class declaration with no matching closing brace before
end-of-input it still returns the class element with the children discovered
before truncation, with nothing artificially synthesized. -/
theorem claim_C3 : CSharpParser.parse c3Input = [c3Class] := rfl

/-! ## Claim C4 -/

def c4OneLine : List Str :=
  [str "export default \x7b methods: \x7b foo() \x7b\x7d \x7d \x7d"]

def c4FlatExport : CodeElement :=
  { name := str "export default", type := CodeElementType.Class,
    accessModifier := AccessModifier.Default, line := 1, children := [] }

/-- Claim C4, counterexample: with the quoted input given as the single line
it is, the net brace count of the `export default` line is zero, so the
options sub-scan is never entered and the export element has no children at
all — in particular no `methods` child. -/
theorem claim_C4_counterexample :
    JavaScriptParser.parse c4OneLine 0 = [c4FlatExport] := rfl

def c4MultiLine : List Str :=
  [str "export default \x7b", str "  methods: \x7b", str "    foo() \x7b\x7d",
   str "  \x7d", str "\x7d"]

def c4Foo : CodeElement :=
  { name := str "foo", type := CodeElementType.Method,
    accessModifier := AccessModifier.Default, line := 3,
    parameters := some (str ""), children := [] }

def c4Methods : CodeElement :=
  { name := str "methods", type := CodeElementType.Property,
    accessModifier := AccessModifier.Default, line := 2, children := [c4Foo] }

def c4Export : CodeElement :=
  { name := str "export default", type := CodeElementType.Class,
    accessModifier := AccessModifier.Default, line := 1, children := [c4Methods] }

/-- Claim C4, amended: with the object literal spread over multiple lines
(each brace-opening on its own line), scanning yields the root element named
`export default`, with exactly one child named `methods`, with exactly one
grandchild method named `foo`; the single-line form yields the root element
with no children. -/
theorem claim_C4_amended :
    JavaScriptParser.parse c4MultiLine 0 = [c4Export] := rfl

/-! ## Claim C5 -/

def c5PrimaryInput : List Str :=
  [str "<script>", str "function foo() \x7b\x7d", str "</script>"]

def c5Foo : CodeElement :=
  { name := str "foo", type := CodeElementType.Function,
    accessModifier := AccessModifier.Default, line := 1, children := [] }

def c5Script : CodeElement :=
  { name := str "script", type := CodeElementType.Module,
    accessModifier := AccessModifier.Default, line := 1, children := [c5Foo] }

def c5OptionsInput : List Str :=
  [str "<script>", str "export default \x7b", str "  methods: \x7b", str "    foo() \x7b\x7d",
   str "  \x7d", str "\x7d", str "</script>"]

def c5OptFoo : CodeElement :=
  { name := str "foo", type := CodeElementType.Method,
    accessModifier := AccessModifier.Default, line := 5,
    parameters := some (str ""), children := [] }

def c5OptMethods : CodeElement :=
  { name := str "methods", type := CodeElementType.Property,
    accessModifier := AccessModifier.Default, line := 4, children := [c5OptFoo] }

def c5OptExport : CodeElement :=
  { name := str "export default", type := CodeElementType.Class,
    accessModifier := AccessModifier.Default, line := 3, children := [c5OptMethods] }

def c5OptScript : CodeElement :=
  { name := str "script", type := CodeElementType.Module,
    accessModifier := AccessModifier.Default, line := 1, children := [c5OptExport] }

/-- Claim C5, failing evaluations: in the first Vue file, `function foo` sits
on original line 2 yet is reported with line 1 (the primary-mode producers
ignore the threaded offset); in the second, `export default` sits on original
line 2 yet is reported with line 3 (the options mode adds
`scriptStartLine + 1` to the 1-based fragment line, one more than the
original position).  The claimed invariant `reported = original` holds in
neither mode. -/
theorem claim_C5 :
    VueParser.parse c5PrimaryInput = [c5Script] ∧
    VueParser.parse c5OptionsInput = [c5OptScript] :=
  ⟨rfl, rfl⟩

/-! ## Claim C6 -/

def c6OneLine : List Str := [str "<div id=\"x\"><span>...</span></div>"]

def c6FlatDiv : CodeElement :=
  { name := str "x", type := CodeElementType.Module,
    accessModifier := AccessModifier.Default, line := 1, children := [],
    tagName := some (str "div") }

/-- Claim C6, counterexample: on the quoted input as a single line, the
tag-stack scanner detects only the first tag of the line, so the `div`
element (named `x`) has no `span` child. -/
theorem claim_C6_counterexample :
    VueParser.parseTemplateContent c6OneLine 1 = [c6FlatDiv] := rfl

def c6MultiLine : List Str :=
  [str "<div id=\"x\">", str "<span>...</span>", str "</div>"]

def c6Span : CodeElement :=
  { name := str "span", type := CodeElementType.Module,
    accessModifier := AccessModifier.Default, line := 2, children := [],
    tagName := some (str "span") }

def c6Div : CodeElement :=
  { name := str "x", type := CodeElementType.Module,
    accessModifier := AccessModifier.Default, line := 1, children := [c6Span],
    tagName := some (str "div") }

def c6HtmlDiv : CodeElement :=
  { name := str "div", type := CodeElementType.Module,
    accessModifier := AccessModifier.Default, line := 1, children := [] }

/-- Claim C6, amended: with each tag on its own line the tag-stack scanner
yields a `div` element named `x` whose single child is a `span` element;
the flat `.html` scanner recovers neither the nesting nor the id-based name
on the same input. -/
theorem claim_C6_amended :
    VueParser.parseTemplateContent c6MultiLine 1 = [c6Div] ∧
    HtmlParser.parse c6MultiLine = [c6HtmlDiv] :=
  ⟨rfl, rfl⟩

/-! ## Claim C7 -/

def c7Input : List Str := [str "function foo() \x7b\x7d"]

def c7Foo : CodeElement :=
  { name := str "foo", type := CodeElementType.Function,
    accessModifier := AccessModifier.Default, line := 1, children := [] }

/-- Claim C7, failing evaluation: on a file with no template/script/style
tag at all, the container scanner returns the empty list, although the
script scanner applied to the same content yields the function element; the
fallback branch is unreachable because script content is only ever collected
inside an open script tag, which also pushes an element. -/
theorem claim_C7 :
    VueParser.parse c7Input = [] ∧
    JavaScriptParser.parse c7Input 0 = [c7Foo] :=
  ⟨rfl, rfl⟩

/-! ## Claim C8 -/

def c8Input : List Str :=
  [str "class C \x7b", str "/// <summary>Add two numbers</summary>",
   str "/// <param name=\"a\">first</param>", str "public int Add(int a,int b)\x7b\x7d",
   str "\x7d"]

/-- Claim C8, counterexample: the produced element's own `params` field (the
interface's `paramDescriptions` datum) is never populated by the builder —
it is `undefined` even on the claim's own input, where the documentation
pass did extract `[("a", "first")]`. -/
theorem claim_C8_counterexample :
    ((CSharpParser.parse c8Input).head?.bind (fun e => e.children.head?)).map
      (fun m => m.params) = some none := rfl

def c8ParamNode : CodeElement :=
  { name := str "a", type := CodeElementType.Variable,
    accessModifier := AccessModifier.Default, line := 4,
    comment := some (str "first"), children := [] }

def c8ParamsNode : CodeElement :=
  { name := BaseParser.paramsName, type := CodeElementType.Variable,
    accessModifier := AccessModifier.Default, line := 4,
    comment := none, children := [c8ParamNode] }

def c8DescNode : CodeElement :=
  { name := BaseParser.descName, type := CodeElementType.Variable,
    accessModifier := AccessModifier.Default, line := 4,
    comment := some (str "Add two numbers"), children := [] }

def c8Add : CodeElement :=
  { name := str "Add", type := CodeElementType.Method,
    accessModifier := AccessModifier.Public, line := 4,
    comment := some (str "Add two numbers"), returnType := some (str "int"),
    parameters := some (str "int a,int b"), children := [c8DescNode, c8ParamsNode] }

def c8Class : CodeElement :=
  { name := str "C", type := CodeElementType.Class,
    accessModifier := AccessModifier.Default, line := 1, children := [c8Add] }

def c8bInput : List Str :=
  [str "class C \x7b", str "/// <summary>S</summary>", str "// plain note",
   str "public int Add(int a,int b)\x7b\x7d", str "\x7d"]

def c8bDescNode : CodeElement :=
  { name := BaseParser.descName, type := CodeElementType.Variable,
    accessModifier := AccessModifier.Default, line := 4,
    comment := some (str "S"), children := [] }

def c8bAdd : CodeElement :=
  { name := str "Add", type := CodeElementType.Method,
    accessModifier := AccessModifier.Public, line := 4,
    comment := some (str "S"), returnType := some (str "int"),
    parameters := some (str "int a,int b"), children := [c8bDescNode] }

def c8bClass : CodeElement :=
  { name := str "C", type := CodeElementType.Class,
    accessModifier := AccessModifier.Default, line := 1, children := [c8bAdd] }

/-- Claim C8, amended: on the quoted input the produced element has comment
"Add two numbers" and the documentation pass yields the parameter
descriptions `[("a", "first")]`, which materialize as the parameters
pseudo-child (the element's own `params` field stays unset); a documentation
summary takes priority over a plain preceding comment; and both the
`returns` field and the parameter descriptions come only from the
documentation pass (`returns` always equals the pass result, and the
element's `params` field is never populated by anything). -/
theorem claim_C8_amended :
    CSharpParser.parse c8Input = [c8Class] ∧
    BaseParser.extractXmlCommentInfo c8Input 3 =
      { summary := some (str "Add two numbers"), params := [(str "a", str "first")],
        returns := none } ∧
    CSharpParser.parse c8bInput = [c8bClass] ∧
    (∀ (n : Str) (t : CodeElementType) (l : Nat) (lt : Str) (ls : List Str)
      (rt ps : Option Str) (li : Option Nat),
      (BaseParser.createElement n t l lt ls rt ps li).returns =
        (BaseParser.extractXmlCommentInfo ls
          (match li with | some i => i | none => l - 1)).returns) ∧
    (∀ (n : Str) (t : CodeElementType) (l : Nat) (lt : Str) (ls : List Str)
      (rt ps : Option Str) (li : Option Nat),
      (BaseParser.createElement n t l lt ls rt ps li).params = none) :=
  ⟨rfl, rfl, rfl, createElement_returns, createElement_params⟩

/-! ## Claim C9 -/

theorem mapGet_mapSet (m : List (Str × ParserCtor)) (k : Str) (v : ParserCtor) :
    ParserFactory.mapGet (ParserFactory.mapSet m k v) k = some v := by
  induction m with
  | nil =>
    simp only [ParserFactory.mapSet, ParserFactory.mapGet]
    rw [List.find?_cons_of_pos]
    · rfl
    · exact beq_self_eq_true k
  | cons p m ih =>
    simp only [ParserFactory.mapSet, ParserFactory.mapGet]
    by_cases hp : (p.1 == k) = true
    · rw [if_pos hp]
      rw [List.find?_cons_of_pos]
      · rfl
      · exact beq_self_eq_true k
    · rw [if_neg hp]
      rw [List.find?_cons_of_neg]
      · exact ih
      · exact hp

/-- Claim C9: an unsupported kind is an absence (`none`, matching
`isSupported`), illustrated on the default registry; and after registering a
factory for a key, dispatch on a path with that (normalized) extension
returns that factory, for any prior registry contents — last registration
wins, with no error on overwrite. -/
theorem claim_C9 :
    ParserFactory.createParser ParserFactory.defaultParsers (str "foo.xyz") = none ∧
    (∀ (reg : List (Str × ParserCtor)) (path : Str),
      (ParserFactory.createParser reg path).isSome = ParserFactory.isSupported reg path) ∧
    (∀ (reg : List (Str × ParserCtor)) (k : Str) (f : ParserCtor) (path : Str),
      ParserFactory.extOf path = toLowerL k →
      ParserFactory.createParser (ParserFactory.registerParser reg k f) path = some f) := by
  refine ⟨rfl, fun reg path => rfl, fun reg k f path h => ?_⟩
  unfold ParserFactory.createParser ParserFactory.registerParser
  rw [h]
  exact mapGet_mapSet ..

/-- Claim C9, witness: registering `.CS` (normalized to `.cs`) over the
default registry reroutes `a.cs` to the new factory. -/
theorem claim_C9_witness :
    ParserFactory.createParser
      (ParserFactory.registerParser ParserFactory.defaultParsers (str ".CS")
        (ParserCtor.otherParser 0)) (str "a.cs") = some (ParserCtor.otherParser 0) :=
  claim_C9.2.2 ParserFactory.defaultParsers (str ".CS") (ParserCtor.otherParser 0)
    (str "a.cs") (by decide)

/-! ## Claim C10 -/

/-- Claim C10: every synthesized pseudo-element (for any builder call) has
the parent's line number, kind variable and default accessibility, and an
empty children list except for the parameters node, whose children are the
per-parameter nodes, themselves leaves with the same line, kind and
accessibility. -/
theorem claim_C10 :
    ∀ (n : Str) (t : CodeElementType) (l : Nat) (lt : Str) (ls : List Str)
      (rt ps : Option Str) (li : Option Nat),
      ((BaseParser.createElement n t l lt ls rt ps li).children.all fun c =>
        c.line == l && c.type == CodeElementType.Variable &&
        c.accessModifier == AccessModifier.Default &&
        (c.name == BaseParser.paramsName || c.children.isEmpty) &&
        c.children.all (fun g => g.line == l && g.type == CodeElementType.Variable &&
          g.accessModifier == AccessModifier.Default && g.children.isEmpty)) = true := by
  intro n t l lt ls rt ps li
  unfold BaseParser.createElement
  cases li with
  | none =>
    dsimp only
    split
    · exact pseudoChildren_all ..
    · rfl
  | some i =>
    dsimp only
    split
    · exact pseudoChildren_all ..
    · rfl
